import Mathlib

/-!
Verification of the FactomCode peer/leader core and credit-chain serialization.

Shallow embedding of:
  * `common/cchain.go` — credit-block data structures and their binary
    marshaling (`CBlockHeader`, `BuyCBEntry`, `PayEntryCBEntry`,
    `PayChainCBEntry`, `CBInfo`, `CBlock.UnmarshalBinary`);
  * `server/server.go` — the peer manager (`handleAddPeerMsg`, outbound
    replenishment), `randomUint16Number`, the federate-server roster role
    mutators, and the leader state machine (`handleNextLeader`,
    `selectNextLeader`, `selectCurrentleader`, `sendCurrentLeaderMsg`);
  * the RESTful admin surface (`serveRESTfulHTTP` / `post`).

Bytes are modelled as `Nat` (range tracked in hypotheses), Go `uint32`/`uint64`
arithmetic as `Nat` with explicit reduction modulo `2^32` / `2^64`, Go `int32`
and `int64` as `Int` with explicit two's-complement encoding, and Go panics as
`none` / dedicated outcome constructors.
-/

namespace FactomCode

/-! ## Byte-level helpers (big-endian, as used by `encoding/binary`) -/

/-- Go `uint32` wrap-around. -/
def u32 (n : Nat) : Nat := n % 4294967296

/-- Go `uint32` subtraction with wrap-around (used for the `- 1` in height
comparisons). -/
def u32sub (a b : Nat) : Nat := (a + 4294967296 - b % 4294967296) % 4294967296

/-- Big-endian 4-byte encoding of a `uint32` value, as written by
`binary.Write(&buf, binary.BigEndian, v)`. -/
def u32be (n : Nat) : List Nat :=
  [n / 16777216 % 256, n / 65536 % 256, n / 256 % 256, n % 256]

/-- Big-endian 8-byte encoding of a `uint64` value. -/
def u64be (n : Nat) : List Nat :=
  [n / 72057594037927936 % 256, n / 281474976710656 % 256,
   n / 1099511627776 % 256, n / 4294967296 % 256,
   n / 16777216 % 256, n / 65536 % 256, n / 256 % 256, n % 256]

/-- Big-endian decoding of a byte list, as read by
`binary.BigEndian.Uint32` / `binary.BigEndian.Uint64` (applied to a `take`
of the right width). -/
def beToNat (l : List Nat) : Nat := l.foldl (fun acc b => acc * 256 + b) 0

/-- Two's-complement big-endian 4-byte encoding of a Go `int32`, as written
by `binary.Write` for the `credits` fields. -/
def i32be (c : Int) : List Nat := u32be ((c % 4294967296).toNat)

/-- Decode a `uint32`-ranged natural back into a Go `int32` value. -/
def decI32 (n : Nat) : Int :=
  if n < 2147483648 then (n : Int) else (n : Int) - 4294967296

/-- Two's-complement big-endian 8-byte encoding of a Go `int64`
(`TimeStamp` fields). -/
def i64be (c : Int) : List Nat := u64be ((c % 18446744073709551616).toNat)

/-- Decode a `uint64`-ranged natural back into a Go `int64` value. -/
def decI64 (n : Nat) : Int :=
  if n < 9223372036854775808 then (n : Int) else (n : Int) - 18446744073709551616

/-! ## `common.Hash`

Modelled from the spec: the `common.Hash` type is not under `src/`; the spec
fixes its serialized form to a 33-byte field (`chainID(33B)`, `bodyHash(33B)`,
… in the block-header layout), `MarshalBinary` emitting exactly those bytes
and `MarshalledSize` being 33. -/

structure Hash where
  bytes : List Nat
deriving Repr, DecidableEq

/-- Modelled from the spec: `Hash.MarshalBinary` emits the hash's 33 bytes. -/
def Hash.MarshalBinary (h : Hash) : List Nat := h.bytes

/-- Modelled from the spec: `Hash.MarshalledSize` is 33. -/
def Hash.MarshalledSize : Nat := 33

/-- `h.UnmarshalBinary(data); data = data[h.MarshalledSize():]` — read a
33-byte hash and return the rest of the input. -/
def readHash (data : List Nat) : Hash × List Nat :=
  (⟨data.take 33⟩, data.drop 33)

/-! ## `CBlockHeader` (cchain.go lines 267-376) -/

structure CBlockHeader where
  ChainID : Hash
  BodyHash : Hash
  PrevKeyMR : Hash
  PrevHash : Hash
  /-- Go `uint32`. -/
  DBHeight : Nat
  SegmentsMR : Hash
  BalanceMR : Hash
  /-- Go `uint64`. -/
  BodySize : Nat
deriving Repr, DecidableEq

def CBlockHeader.MarshalBinary (b : CBlockHeader) : List Nat :=
  b.ChainID.MarshalBinary ++ b.BodyHash.MarshalBinary ++
  b.PrevKeyMR.MarshalBinary ++ b.PrevHash.MarshalBinary ++
  u32be b.DBHeight ++
  b.SegmentsMR.MarshalBinary ++ b.BalanceMR.MarshalBinary ++
  u64be b.BodySize

/-- Source sums six `Hash.MarshalledSize`, 4 for `DBHeight`, 8 for
`BodySize`: 210. -/
def CBlockHeader.MarshalledSize : Nat := 33 + 33 + 33 + 33 + 4 + 33 + 33 + 8

def CBlockHeader.UnmarshalBinary (data : List Nat) : CBlockHeader :=
  let (chainID, d1) := readHash data
  let (bodyHash, d2) := readHash d1
  let (prevKeyMR, d3) := readHash d2
  let (prevHash, d4) := readHash d3
  let dbHeight := beToNat (d4.take 4)
  let d5 := d4.drop 4
  let (segmentsMR, d6) := readHash d5
  let (balanceMR, d7) := readHash d6
  let bodySize := beToNat (d7.take 8)
  ⟨chainID, bodyHash, prevKeyMR, prevHash, dbHeight, segmentsMR, balanceMR, bodySize⟩

/-! ## Credit-block entry types (cchain.go lines 381-706) -/

def TYPE_SERVER_INDEX : Nat := 0
def TYPE_MINUTE_NUMBER : Nat := 1
def TYPE_PAY_CHAIN : Nat := 2
def TYPE_PAY_ENTRY : Nat := 3
def TYPE_BUY : Nat := 4

structure BuyCBEntry where
  entryType : Nat
  publicKey : Hash
  /-- Go `int32`. -/
  credits : Int
  FactomTxHash : Hash
deriving Repr, DecidableEq

def BuyCBEntry.MarshalBinary (e : BuyCBEntry) : List Nat :=
  [e.entryType] ++ e.publicKey.MarshalBinary ++ i32be e.credits ++
  e.FactomTxHash.MarshalBinary

def BuyCBEntry.MarshalledSize (_e : BuyCBEntry) : Nat := 1 + 33 + 4 + 33

/-- Entry bodies are modelled as total readers (Go would panic on short
input; the claims evaluate them only on complete marshaled data). -/
def BuyCBEntry.UnmarshalBinary (data : List Nat) : BuyCBEntry :=
  let t := data.headD 0
  let d0 := data.drop 1
  let (pk, d1) := readHash d0
  let credits := decI32 (beToNat (d1.take 4))
  let d2 := d1.drop 4
  let (txh, _) := readHash d2
  ⟨t, pk, credits, txh⟩

structure PayEntryCBEntry where
  entryType : Nat
  publicKey : Hash
  /-- Go `int32`. -/
  credits : Int
  EntryHash : Hash
  /-- Go `int64`. -/
  TimeStamp : Int
  Sig : List Nat
deriving Repr, DecidableEq

def PayEntryCBEntry.MarshalBinary (e : PayEntryCBEntry) : List Nat :=
  [e.entryType] ++ e.publicKey.MarshalBinary ++ i32be e.credits ++
  e.EntryHash.MarshalBinary ++ i64be e.TimeStamp ++
  u32be e.Sig.length ++ e.Sig

def PayEntryCBEntry.MarshalledSize (e : PayEntryCBEntry) : Nat :=
  1 + 33 + 4 + 33 + 8 + 4 + e.Sig.length

def PayEntryCBEntry.UnmarshalBinary (data : List Nat) : PayEntryCBEntry :=
  let t := data.headD 0
  let d0 := data.drop 1
  let (pk, d1) := readHash d0
  let credits := decI32 (beToNat (d1.take 4))
  let d2 := d1.drop 4
  let (eh, d3) := readHash d2
  let ts := decI64 (beToNat (d3.take 8))
  let d4 := d3.drop 8
  let len := beToNat (d4.take 4)
  let d5 := d4.drop 4
  ⟨t, pk, credits, eh, ts, d5.take len⟩

structure PayChainCBEntry where
  entryType : Nat
  publicKey : Hash
  /-- Go `int32`. -/
  credits : Int
  EntryHash : Hash
  ChainIDHash : Hash
  EntryChainIDHash : Hash
  Sig : List Nat
deriving Repr, DecidableEq

def PayChainCBEntry.MarshalBinary (e : PayChainCBEntry) : List Nat :=
  [e.entryType] ++ e.publicKey.MarshalBinary ++ i32be e.credits ++
  e.EntryHash.MarshalBinary ++ e.ChainIDHash.MarshalBinary ++
  e.EntryChainIDHash.MarshalBinary ++ u32be e.Sig.length ++ e.Sig

def PayChainCBEntry.MarshalledSize (e : PayChainCBEntry) : Nat :=
  1 + 33 + 4 + 33 + 33 + 33 + 4 + e.Sig.length

def PayChainCBEntry.UnmarshalBinary (data : List Nat) : PayChainCBEntry :=
  let t := data.headD 0
  let d0 := data.drop 1
  let (pk, d1) := readHash d0
  let credits := decI32 (beToNat (d1.take 4))
  let d2 := d1.drop 4
  let (eh, d3) := readHash d2
  let (cih, d4) := readHash d3
  let (ecih, d5) := readHash d4
  let len := beToNat (d5.take 4)
  let d6 := d5.drop 4
  ⟨t, pk, credits, eh, cih, ecih, d6.take len⟩

/-! ## `CBInfo` (cchain.go lines 32-37, 172-215) -/

structure CBInfo where
  CBHash : Hash
  FBHash : Hash
  /-- Go `uint64`. -/
  FBBlockNum : Nat
  ChainID : Hash
deriving Repr, DecidableEq

def CBInfo.MarshalBinary (b : CBInfo) : List Nat :=
  b.CBHash.MarshalBinary ++ b.FBHash.MarshalBinary ++
  u64be b.FBBlockNum ++ b.ChainID.MarshalBinary

def CBInfo.MarshalledSize : Nat := 33 + 33 + 8 + 33

def CBInfo.UnmarshalBinary (data : List Nat) : CBInfo :=
  let (cbh, d1) := readHash data
  let (fbh, d2) := readHash d1
  let num := beToNat (d2.take 8)
  let d3 := d2.drop 8
  let (cid, _) := readHash d3
  ⟨cbh, fbh, num, cid⟩

/-! ## `CBlock.UnmarshalBinary` (cchain.go lines 144-170)

The source dispatches on the leading type byte of each entry; a byte that is
none of `TYPE_BUY`, `TYPE_PAY_CHAIN`, `TYPE_PAY_ENTRY` leaves the
`CBEntries[i]` interface slot nil and the following
`b.CBEntries[i].UnmarshalBinary(data)` dereferences a nil interface (runtime
panic). Panics are modelled with dedicated outcome constructors. -/

inductive CBEntryVal where
  | buy (e : BuyCBEntry)
  | payEntry (e : PayEntryCBEntry)
  | payChain (e : PayChainCBEntry)
deriving Repr, DecidableEq

structure CBlockM where
  Header : CBlockHeader
  CBEntries : List CBEntryVal
deriving Repr, DecidableEq

inductive CUnmarshal where
  /-- Normal return. -/
  | ok (b : CBlockM)
  /-- Go panic: slice access past the end of `data`. -/
  | panicShortData
  /-- Go panic: method call on the nil `CBEntry` interface left by an
  unrecognized type byte. -/
  | panicNilEntry
deriving Repr, DecidableEq

inductive EntriesResult where
  | ok (es : List CBEntryVal)
  | shortData
  | nilEntry
deriving Repr, DecidableEq

/-- The entry loop of `CBlock.UnmarshalBinary`, by remaining count. -/
def unmarshalCBEntries : Nat → List Nat → EntriesResult
  | 0, _ => .ok []
  | n + 1, data =>
    if data.length = 0 then .shortData
    else if data.headD 0 = TYPE_BUY then
      let e := BuyCBEntry.UnmarshalBinary data
      match unmarshalCBEntries n (data.drop e.MarshalledSize) with
      | .ok es => .ok (.buy e :: es)
      | r => r
    else if data.headD 0 = TYPE_PAY_CHAIN then
      let e := PayChainCBEntry.UnmarshalBinary data
      match unmarshalCBEntries n (data.drop e.MarshalledSize) with
      | .ok es => .ok (.payChain e :: es)
      | r => r
    else if data.headD 0 = TYPE_PAY_ENTRY then
      let e := PayEntryCBEntry.UnmarshalBinary data
      match unmarshalCBEntries n (data.drop e.MarshalledSize) with
      | .ok es => .ok (.payEntry e :: es)
      | r => r
    else .nilEntry

def CBlockUnmarshalBinary (data : List Nat) : CUnmarshal :=
  let h := CBlockHeader.UnmarshalBinary data
  let d := data.drop CBlockHeader.MarshalledSize
  if d.length < 8 then .panicShortData
  else
    let count := beToNat (d.take 8)
    match unmarshalCBEntries count (d.drop 8) with
    | .ok es => .ok ⟨h, es⟩
    | .shortData => .panicShortData
    | .nilEntry => .panicNilEntry

/-! ## Roster and roles (server.go)

`wire.NodeState` and the `peer` struct live outside `src/`.
Modelled from the spec: role is
`nodeState ∈ {Candidate, Follower, LeaderElect, Leader, LeaderPrev}`, and a
peer's identity is `(nodeID, addr, nodeType, pubKey)` with direction and
persistence flags. Only the fields the embedded functions touch are kept.
Go mutates peers through pointers; here the roster is a list and a pointer
is the index of its target, so "set the state of the peer returned by a
getter" becomes "update the first list element the getter matches". -/

inductive NodeState where
  | candidate
  | follower
  | leaderElect
  | leader
  | leaderPrev
deriving Repr, DecidableEq

structure Peer where
  nodeID : String
  nodeType : String
  addr : String
  /-- Models `addrmgr.GroupKey(p.na)` (external address manager). -/
  groupKey : String
  inbound : Bool
  persistent : Bool
  nodeState : NodeState
deriving Repr, DecidableEq

structure federateServer where
  Peer : Peer
  StartTime : Int
  FirstJoined : Nat
  FirstAsFollower : Nat
  LastSuccessVote : Nat
  LeaderLast : Nat
deriving Repr, DecidableEq

structure leaderPolicy where
  NextLeader : Option Peer
  StartDBHeight : Nat
  Term : Nat
  NotifyDBHeight : Nat
  Notified : Bool
  Confirmed : Bool
deriving Repr, DecidableEq

def defaultLeaderTerm : Nat := 2

def defaultNotifyDBHeight : Nat := 1

/-- Modelled from the spec: `common.SERVER_NODE` (constant not under `src/`);
only equality with `nodeType` matters. -/
def SERVER_NODE : String := "SERVER"

/-- Modelled from the spec: signatures are opaque values of
`sign(bytes) -> sig` under the emitter's key; a signature is represented by
the signing identity together with the signed bytes. -/
structure Signature where
  signer : String
  data : String
deriving Repr, DecidableEq

def signMsg (signerID signedData : String) : Signature := ⟨signerID, signedData⟩

/-- `wire.NewNextLeaderMsg` / `wire.NewCurrentLeaderMsg` payloads. -/
inductive WireMsg where
  | nextLeader (currentID nextID : String) (startHeight : Nat) (sig : Signature)
  | currentLeader (deadID newID sourceID : String) (height : Nat) (sig : Signature)
deriving Repr, DecidableEq

structure server where
  nodeID : String
  nodeType : String
  /-- The `shutdown` atomic flag. -/
  shutdown : Bool
  federateServers : List federateServer
  myLeaderPolicy : Option leaderPolicy
deriving Repr, DecidableEq

/-! ### List combinators standing in for pointer writes -/

/-- Apply `f` to the element at index `i` (no-op when out of range). -/
def updAt (l : List α) (i : Nat) (f : α → α) : List α :=
  match l, i with
  | [], _ => []
  | a :: l, 0 => f a :: l
  | a :: l, n + 1 => a :: updAt l n f

/-- Index of the first element satisfying `p` (the position a Go
first-match loop would return a pointer to). -/
def findIdxBy (p : α → Bool) : List α → Option Nat
  | [] => none
  | a :: l => if p a then some 0 else (findIdxBy p l).map (· + 1)

/-- First element satisfying `p`. -/
def findBy (p : α → Bool) : List α → Option α
  | [] => none
  | a :: l => if p a then some a else findBy p l

/-- Update the first element satisfying `p` (no-op when none matches). -/
def setFirstBy (p : α → Bool) (f : α → α) (l : List α) : List α :=
  match findIdxBy p l with
  | some i => updAt l i f
  | none => l

def setPeerStateAt (l : List federateServer) (i : Nat) (st : NodeState) :
    List federateServer :=
  updAt l i (fun fs => { fs with Peer := { fs.Peer with nodeState := st } })

/-- The Go pattern `peer := s.GetPeer(src); if peer != nil { peer.nodeState = tgt }`. -/
def demoteFirst (l : List federateServer) (src tgt : NodeState) :
    List federateServer :=
  setFirstBy (fun fs => fs.Peer.nodeState == src)
    (fun fs => { fs with Peer := { fs.Peer with nodeState := tgt } }) l

/-! ### Getters (server.go lines 2372-2516) -/

def GetPeer (s : server) (ns : NodeState) : Option Peer :=
  (findBy (fun fs => fs.Peer.nodeState == ns) s.federateServers).map (·.Peer)

def GetPeerByID (s : server) (pid : String) : Option Peer :=
  (findBy (fun fs => fs.Peer.nodeID == pid) s.federateServers).map (·.Peer)

def GetLeaderElect (s : server) : Option Peer := GetPeer s .leaderElect

def GetLeaderPeer (s : server) : Option Peer := GetPeer s .leader

def GetPrevLeaderPeer (s : server) : Option Peer := GetPeer s .leaderPrev

def GetFederateServerByID (s : server) (pid : String) : Option federateServer :=
  findBy (fun fs => fs.Peer.nodeID == pid) s.federateServers

def GetMyFederateServer (s : server) : Option federateServer :=
  GetFederateServerByID s s.nodeID

def FederateServerCount (s : server) : Nat :=
  if s.nodeType = SERVER_NODE then s.federateServers.length else 0

def isSingleServerMode (s : server) : Bool := FederateServerCount s == 1

/-- `nonCandidateServers` splits the roster in order (`fs.Peer.IsCandidate()`
is `p.nodeState == NodeCandidate`, modelled from the spec since `peer.go` is
not under `src/`). -/
def nonCandidateServers (s : server) :
    List federateServer × List federateServer :=
  (s.federateServers.filter (fun fs => !(fs.Peer.nodeState == .candidate)),
   s.federateServers.filter (fun fs => fs.Peer.nodeState == .candidate))

/-! ### Role mutators (server.go lines 2322-2425)

The pointer-taking mutators receive the index of their target peer in
`federateServers`. -/

def SetLeaderPeer (s : server) (i : Nat) : server :=
  let l := demoteFirst s.federateServers .leader .leaderPrev
  { s with federateServers := setPeerStateAt l i .leader }

def SetLeaderPeerByID (s : server) (pid : String) : server :=
  let l := demoteFirst s.federateServers .leader .leaderPrev
  match findIdxBy (fun fs => fs.Peer.nodeID == pid) l with
  | some i => { s with federateServers := setPeerStateAt l i .leader }
  | none => { s with federateServers := l }

def setLeaderElect (s : server) (i : Nat) : server :=
  let l := demoteFirst s.federateServers .leaderElect .follower
  { s with federateServers := setPeerStateAt l i .leaderElect }

def setLeaderElectByID (s : server) (pid : String) : server :=
  let l := demoteFirst s.federateServers .leaderElect .follower
  match findIdxBy (fun fs => fs.Peer.nodeID == pid) l with
  | some i => { s with federateServers := setPeerStateAt l i .leaderElect }
  | none => { s with federateServers := l }

def SetPrevLeaderPeer (s : server) (i : Nat) : server :=
  let l := demoteFirst s.federateServers .leaderPrev .follower
  { s with federateServers := setPeerStateAt l i .leaderPrev }

def SetPrevLeaderByID (s : server) (pid : String) : server :=
  let l := demoteFirst s.federateServers .leaderPrev .follower
  match findIdxBy (fun fs => fs.Peer.nodeID == pid) l with
  | some i => { s with federateServers := setPeerStateAt l i .leaderPrev }
  | none => { s with federateServers := l }

/-- `s.GetFederateServerByID(pid).LeaderLast = h` (write through the
returned pointer). -/
def setLeaderLastByID (s : server) (pid : String) (h : Nat) : server :=
  { s with
    federateServers :=
      setFirstBy (fun fs => fs.Peer.nodeID == pid)
        (fun fs => { fs with LeaderLast := h }) s.federateServers }

/-! ### Sorting (server.go lines 2753-2777)

`sort.Sort(ByLeaderLast(...))` / `sort.Sort(ByStartTime(...))` with strict
`Less`; the Go sort is unspecified on ties, realized here as a stable
insertion sort. -/

def insertByLeaderLast (a : federateServer) :
    List federateServer → List federateServer
  | [] => [a]
  | b :: l =>
    if b.LeaderLast ≤ a.LeaderLast then b :: insertByLeaderLast a l
    else a :: b :: l

def sortByLeaderLast : List federateServer → List federateServer
  | [] => []
  | a :: l => insertByLeaderLast a (sortByLeaderLast l)

def insertByStartTime (a : federateServer) :
    List federateServer → List federateServer
  | [] => [a]
  | b :: l =>
    if b.StartTime ≤ a.StartTime then b :: insertByStartTime a l
    else a :: b :: l

def sortByStartTime : List federateServer → List federateServer
  | [] => []
  | a :: l => insertByStartTime a (sortByStartTime l)

/-! ### Leader machine (server.go lines 2538-2751)

Each function returns the successor server state together with the list of
broadcast wire messages; `none` models a Go nil-dereference or
index-out-of-range panic. -/

def sendCurrentLeaderMsg (s : server)
    (deadLeader newLeader source : String) (h : Nat) :
    Option (server × List WireMsg) :=
  let s1 := SetLeaderPeerByID s s.nodeID
  match GetMyFederateServer s1 with
  | none => none
  | some myfs =>
    let policy : leaderPolicy :=
      { NextLeader := some myfs.Peer
        StartDBHeight := h
        Term := defaultLeaderTerm
        NotifyDBHeight := defaultNotifyDBHeight
        Notified := false
        Confirmed := false }
    let s2 := { s1 with myLeaderPolicy := some policy }
    let sig := signMsg s.nodeID (deadLeader ++ newLeader ++ source ++ toString h)
    some (s2, [WireMsg.currentLeader deadLeader newLeader source h sig])

def selectNextLeader (s : server) (height : Nat) : Option (server × List WireMsg) :=
  match GetMyFederateServer s with
  | none => none
  | some myfs =>
    if myfs.Peer.nodeState ≠ .leader then some (s, [])
    else
      let nonCandidates := (nonCandidateServers s).1
      let sortPath : Unit → Option (server × List WireMsg) := fun _ =>
        let sorted := sortByLeaderLast nonCandidates
        match findBy (fun fed => !(fed.Peer.nodeID == s.nodeID)) sorted with
        | none => some (s, [])
        | some next =>
          match s.myLeaderPolicy with
          | none => none
          | some P =>
            let h := u32 (P.StartDBHeight + P.Term)
            let sig := signMsg s.nodeID (s.nodeID ++ next.Peer.nodeID)
            some ({ s with myLeaderPolicy := some { P with Notified := true } },
                  [WireMsg.nextLeader s.nodeID next.Peer.nodeID h sig])
      match nonCandidates with
      | [fs0] =>
        if fs0.Peer.nodeID = s.nodeID then
          match s.myLeaderPolicy with
          | none => none
          | some P =>
            some ({ s with
                     myLeaderPolicy := some { P with StartDBHeight := u32 (height + 3) } },
                  [])
        else sortPath ()
      | _ => sortPath ()

def selectCurrentleader (s : server) (height : Nat) :
    Option (server × List WireMsg) :=
  match GetMyFederateServer s with
  | none => none
  | some myfs =>
    if myfs.Peer.nodeState = .leader then some (s, [])
    else
      let (nonCandidates, candidates) := nonCandidateServers s
      if nonCandidates.length = 0 ∧ candidates.length > 0 then some (s, [])
      else
        let sortSection : Unit → Option (server × List WireMsg) := fun _ =>
          match sortByStartTime nonCandidates with
          | [] => none
          | fs0 :: _ =>
            if fs0.Peer.nodeID = s.nodeID then
              let prevID := match GetLeaderPeer s with
                | some p => p.nodeID
                | none => ""
              sendCurrentLeaderMsg s prevID s.nodeID s.nodeID (u32 (height + 1))
            else some (s, [])
        let onlyFollower :=
          !(myfs.Peer.nodeState == .candidate) &&
          (match nonCandidates with
           | [fs0] => fs0.Peer.nodeID == s.nodeID
           | _ => false)
        if myfs.Peer.nodeState = .leaderElect ∨ onlyFollower = true then
          let prevID := match GetLeaderPeer s with
            | some p => p.nodeID
            | none => ""
          sendCurrentLeaderMsg s prevID s.nodeID s.nodeID (u32 (height + 1))
        else if myfs.Peer.nodeState ≠ .leaderElect then
          match GetLeaderElect s with
          | some _ => some (s, [])
          | none =>
            match GetPrevLeaderPeer s with
            | some prev =>
              if !(myfs.Peer.nodeState == .candidate) ∧ prev.nodeID = s.nodeID then
                sendCurrentLeaderMsg s prev.nodeID s.nodeID s.nodeID
                  (u32 (height + 1))
              else some (s, [])
            | none => sortSection ()
        else sortSection ()

def handleNextLeader (s : server) (height : Nat) :
    Option (server × List WireMsg) :=
  match GetMyFederateServer s with
  | none => none
  | some myfs =>
    let isLdr := myfs.Peer.nodeState == .leader
    let isElect := myfs.Peer.nodeState == .leaderElect
    if !isLdr && !isElect then some (s, [])
    else if isSingleServerMode s then
      match s.myLeaderPolicy with
      | none => none
      | some P =>
        some ({ s with
                 myLeaderPolicy := some { P with StartDBHeight := u32 (height + 1) } },
              [])
    else if isElect then
      match s.myLeaderPolicy with
      | none => none
      | some P =>
        if height > P.StartDBHeight then some (s, [])
        else if height = u32sub P.StartDBHeight 1 then
          match GetLeaderPeer s with
          | some leader =>
            match GetFederateServerByID s leader.nodeID with
            | none => none
            | some _ =>
              sendCurrentLeaderMsg (setLeaderLastByID s leader.nodeID height)
                leader.nodeID s.nodeID s.nodeID (u32 (height + 1))
          | none =>
            sendCurrentLeaderMsg s "" s.nodeID s.nodeID (u32 (height + 1))
        else some (s, [])
    else
      match s.myLeaderPolicy with
      | none => none
      | some P =>
        if height > u32 (P.StartDBHeight + P.Term) then some (s, [])
        else if height = u32sub (u32 (P.StartDBHeight + P.NotifyDBHeight)) 1 then
          selectNextLeader s height
        else if height = u32sub (u32 (P.StartDBHeight + P.Term)) 1 then
          let s1 := SetPrevLeaderByID s s.nodeID
          let s2 :=
            match findIdxBy (fun fs => fs.Peer.nodeState == .leaderElect)
                s1.federateServers with
            | some i => SetLeaderPeer s1 i
            | none => s1
          let s3 := { s2 with myLeaderPolicy := none }
          match GetFederateServerByID s3 s.nodeID with
          | none => none
          | some _ => some (setLeaderLastByID s3 s.nodeID height, [])
        else some (s, [])

/-! ## Peer-set state and `handleAddPeerMsg` (server.go lines 877-1081)

Go maps become association lists / lists of peers (only membership and
counts matter to the claims). Times are Unix seconds as `Int`. -/

structure peerState where
  /-- The inbound map `state.peers`. -/
  peers : List Peer
  outboundPeers : List Peer
  persistentPeers : List Peer
  /-- `banned : host → ban-expiry time`. -/
  banned : List (String × Int)
  /-- `outboundGroups : group key → count`. -/
  outboundGroups : List (String × Nat)
  maxOutboundPeers : Nat
deriving Repr, DecidableEq

def peerState.Count (st : peerState) : Nat :=
  st.peers.length + st.outboundPeers.length + st.persistentPeers.length

/-- Go map increment `state.outboundGroups[key]++` (zero value when absent). -/
def bumpGroup (gs : List (String × Nat)) (k : String) : List (String × Nat) :=
  match findIdxBy (fun kv => kv.1 == k) gs with
  | some i => updAt gs i (fun kv => (kv.1, kv.2 + 1))
  | none => gs ++ [(k, 1)]

/-- Models `net.SplitHostPort` (external library) on the `host:port` shapes
this server produces: the host part when the address has exactly one colon,
an error otherwise. -/
def splitHostPort (addr : String) : Option String :=
  match addr.splitOn ":" with
  | [host, _] => some host
  | _ => none

/-- `handleAddPeerMsg` result: `(return value, new peer state, whether
`p.Shutdown()` was invoked)`. `maxPeers` is `cfg.MaxPeers`, `now` is
`time.Now()`. -/
def handleAddPeerMsg (maxPeers : Nat) (s : server) (st : peerState)
    (p : Option Peer) (now : Int) : Bool × peerState × Bool :=
  match p with
  | none => (false, st, false)
  | some p =>
    if s.shutdown then (false, st, true)
    else if s.federateServers.any
        (fun fed => fed.Peer.addr == p.addr || fed.Peer.nodeID == p.nodeID) then
      (false, st, true)
    else
      match splitHostPort p.addr with
      | none => (false, st, true)
      | some host =>
        let banStep : peerState × Bool :=
          match st.banned.lookup host with
          | some banEnd =>
            if now < banEnd then (st, true)
            else ({ st with banned := st.banned.eraseP (fun kv => kv.1 == host) },
                  false)
          | none => (st, false)
        if banStep.2 then (false, st, true)
        else
          let st1 := banStep.1
          if st1.Count ≥ maxPeers then (false, st1, true)
          else if p.inbound then
            (true, { st1 with peers := p :: st1.peers }, false)
          else
            let st2 := { st1 with
                          outboundGroups := bumpGroup st1.outboundGroups p.groupKey }
            if p.persistent then
              (true, { st2 with persistentPeers := p :: st2.persistentPeers }, false)
            else
              (true, { st2 with outboundPeers := p :: st2.outboundPeers }, false)

/-! ## Outbound replenishment skip rule (server.go lines 1601-1615)

In the replenishment loop, after `tries++`, the live code reads

  `if time.Now().After(addr.LastAttempt().Add(10*time.Minute)) && tries < 30 { continue }`

(10 minutes = 600 seconds; `Time.After` is a strict comparison). -/

def replenishSkipsCandidate (now lastAttempt : Int) (tries : Nat) : Bool :=
  decide (now > lastAttempt + 600) && decide (tries < 30)

/-- The skip rule as the spec words it (§4.1 step 2: skip if
`now < lastAttempt + 10min` unless we have already failed ≥30 times in this
burst) — stated for comparison with `replenishSkipsCandidate`. -/
def specReplenishSkipsCandidate (now lastAttempt : Int) (tries : Nat) : Bool :=
  decide (now < lastAttempt + 600) && decide (tries < 30)

/-! ## `randomUint16Number` (server.go lines 886-902) -/

/-- `var limitRange = (math.MaxUint16 / max) * max` — `uint16` arithmetic,
which cannot wrap for `1 ≤ max ≤ 65535`. -/
def limitRange (mx : Nat) : Nat := 65535 / mx * mx

/-- One iteration of `randomUint16Number`'s sampling loop on the 16-bit
sample `v`: `some r` when `v` is accepted and `r` returned, `none` when `v`
is rejected and the loop resamples. -/
def randomUint16Step (mx : Nat) (v : Nat) : Option Nat :=
  if v < limitRange mx then some (v % mx) else none

/-! ## RESTful admin surface (the unnamed `main` source file)

`ncdata.Block` / `ncdata.PlainEntry` are not under `src/`. Modelled from the
spec: `Block {blockID:u64, previousHash:opt<hash>, entries:[Entry],
salt:bytes}` and Entry `{entryType, structuredData:bytes, signatures:[…],
timeStamp:i64}`; an Entry is appended only to the tip block. The JSON and
XML codecs are external (`encoding/json` / `encoding/xml`) and are passed in
as parsing functions. -/

structure PlainEntry where
  entryType : Nat
  structuredData : List Nat
  signatures : List (List Nat)
  TimeStamp : Int
deriving Repr, DecidableEq

structure Block where
  BlockID : Nat
  previousHash : Option Hash
  entries : List PlainEntry
  salt : List Nat
deriving Repr, DecidableEq

/-- Modelled from the spec: `Block.AddEntry` appends the entry to the tip
block's `entries` (the in-`src/` analogue `CBlock.AddCBEntry` appends and
returns a nil error). -/
def Block.AddEntry (b : Block) (e : PlainEntry) : Block :=
  { b with entries := b.entries ++ [e] }

inductive RestErrKind where
  | badMethod
  | jsonUnmarshal
  | xmlUnmarshal
  | unsupportedUnmarshal
  | internalErr
  | notFound
deriving Repr, DecidableEq

/-- The `post` handler. The reflection check on the resource type succeeds
because the caller always hands it `blocks[len(blocks)-1]`, a `*Block`. -/
def post (parseJson parseXml : String → Option PlainEntry) (tip : Block)
    (format fdata : String) (now : Int) :
    Except RestErrKind (Block × PlainEntry) :=
  let parsed : Except RestErrKind PlainEntry :=
    if format = "" ∨ format = "json" then
      match parseJson fdata with
      | some e => .ok e
      | none => .error .jsonUnmarshal
    else if format = "xml" then
      match parseXml fdata with
      | some e => .ok e
      | none => .error .xmlUnmarshal
    else .error .unsupportedUnmarshal
  match parsed with
  | .error k => .error k
  | .ok e =>
    let stamped := { e with TimeStamp := now }
    .ok (tip.AddEntry stamped, stamped)

/-- The `POST` arm of `serveRESTfulHTTP`: path-length gate, then `post` on
the tip block. `none` models the Go panic of `blocks[len(blocks)-1]` on an
empty block list. The result pairs the new block list with the response
(entry or structured error). -/
def serveRESTfulPOST (parseJson parseXml : String → Option PlainEntry)
    (blocks : List Block) (path : List String) (format fdata : String)
    (now : Int) : Option (List Block × Except RestErrKind PlainEntry) :=
  if path.length ≠ 1 then some (blocks, .error .badMethod)
  else
    match blocks.getLast? with
    | none => none
    | some tip =>
      match post parseJson parseXml tip format fdata now with
      | .error k => some (blocks, .error k)
      | .ok (tip2, e) => some (blocks.dropLast ++ [tip2], .ok e)

/-! ## Role-count predicates (for the roster invariant) -/

def roleP (st : NodeState) : federateServer → Bool :=
  fun fs => fs.Peer.nodeState == st

/-- Number of roster entries holding the given role. -/
def countRole (l : List federateServer) (st : NodeState) : Nat :=
  l.countP (roleP st)

/-- At most one peer holds each of `Leader`, `LeaderElect`, `LeaderPrev`. -/
def RosterInv (l : List federateServer) : Prop :=
  countRole l .leader ≤ 1 ∧ countRole l .leaderElect ≤ 1 ∧
  countRole l .leaderPrev ≤ 1

/-! ## Concrete instances used by witnesses and counterexamples -/

def mkPeer (pid : String) (st : NodeState) : Peer :=
  ⟨pid, SERVER_NODE, pid ++ ":8108", "g1", false, false, st⟩

def mkFS (pid : String) (st : NodeState) (leaderLast : Nat) (startTime : Int) :
    federateServer :=
  ⟨mkPeer pid st, startTime, 0, 0, 0, leaderLast⟩

def mkServer (pid : String) (l : List federateServer)
    (pol : Option leaderPolicy) : server :=
  ⟨pid, SERVER_NODE, false, l, pol⟩

/-- Roster with a Leader, a LeaderPrev and a Follower. -/
def rosterC1 : List federateServer :=
  [mkFS "A" .leader 0 0, mkFS "B" .leaderPrev 0 0, mkFS "C" .follower 0 0]

def serverC1 : server := mkServer "A" rosterC1 none

def serverC2 : server :=
  mkServer "A"
    [mkFS "A" .leader 0 0, mkFS "B" .leaderElect 0 0, mkFS "C" .follower 0 0]
    (some ⟨none, 2, 2, 1, false, false⟩)

/-- Leader `A` whose policy has `NotifyDBHeight = Term = 1`: at
`h = StartDBHeight + Term - 1` the notify branch fires instead of the
regime change. -/
def serverC2bad : server :=
  mkServer "A" [mkFS "A" .leader 0 0, mkFS "B" .follower 0 0]
    (some ⟨none, 2, 1, 1, false, false⟩)

/-- What `handleNextLeader serverC2bad 2` actually produces: only
`Notified` is set. -/
def serverC2badAfter : server :=
  mkServer "A" [mkFS "A" .leader 0 0, mkFS "B" .follower 0 0]
    (some ⟨none, 2, 1, 1, true, false⟩)

def serverC3 : server :=
  mkServer "A"
    [mkFS "A" .leader 5 0, mkFS "B" .follower 1 0, mkFS "C" .follower 3 0]
    (some ⟨none, 2, 2, 1, false, false⟩)

def serverC4 : server := mkServer "K" [mkFS "K" .candidate 0 0] none

def emptyPeerState : peerState := ⟨[], [], [], [], [], 8⟩

/-! ## Byte-level lemmas -/

theorem beToNat_u32be (n : Nat) (h : n < 4294967296) : beToNat (u32be n) = n := by
  simp [beToNat, u32be, List.foldl]
  omega

theorem beToNat_u64be (n : Nat) (h : n < 18446744073709551616) :
    beToNat (u64be n) = n := by
  simp [beToNat, u64be, List.foldl]
  omega

theorem u32be_length (n : Nat) : (u32be n).length = 4 := by simp [u32be]

theorem u64be_length (n : Nat) : (u64be n).length = 8 := by simp [u64be]

theorem i32be_length (c : Int) : (i32be c).length = 4 := by
  simp [i32be, u32be]

theorem i64be_length (c : Int) : (i64be c).length = 8 := by
  simp [i64be, u64be]

theorem decI32_i32be (c : Int) (h1 : -2147483648 ≤ c) (h2 : c < 2147483648) :
    decI32 (beToNat (i32be c)) = c := by
  unfold i32be
  rw [beToNat_u32be _ (by omega)]
  unfold decI32
  split <;> omega

theorem decI64_i64be (c : Int) (h1 : -9223372036854775808 ≤ c)
    (h2 : c < 9223372036854775808) : decI64 (beToNat (i64be c)) = c := by
  unfold i64be
  rw [beToNat_u64be _ (by omega)]
  unfold decI64
  split <;> omega

theorem readHash_append (h : Hash) (rest : List Nat)
    (hl : h.bytes.length = 33) : readHash (h.bytes ++ rest) = (h, rest) := by
  unfold readHash
  rw [List.take_left' hl, List.drop_left' hl]

theorem readHash_self (h : Hash) (hl : h.bytes.length = 33) :
    readHash h.bytes = (h, []) := by
  rw [show h.bytes = h.bytes ++ [] by simp]
  exact readHash_append h [] hl

theorem take_exact {α : Type _} {l : List α} {n : Nat} (h : l.length = n) :
    l.take n = l := by
  subst h
  exact List.take_length l

/-! ## Roundtrip lemmas for each marshaled type -/

theorem cblockheader_roundtrip (b : CBlockHeader)
    (h1 : b.ChainID.bytes.length = 33) (h2 : b.BodyHash.bytes.length = 33)
    (h3 : b.PrevKeyMR.bytes.length = 33) (h4 : b.PrevHash.bytes.length = 33)
    (h5 : b.SegmentsMR.bytes.length = 33) (h6 : b.BalanceMR.bytes.length = 33)
    (h7 : b.DBHeight < 4294967296) (h8 : b.BodySize < 18446744073709551616) :
    CBlockHeader.UnmarshalBinary b.MarshalBinary = b := by
  simp only [CBlockHeader.MarshalBinary, CBlockHeader.UnmarshalBinary,
    Hash.MarshalBinary, List.append_assoc,
    readHash_append _ _ h1, readHash_append _ _ h2, readHash_append _ _ h3,
    readHash_append _ _ h4, readHash_append _ _ h5, readHash_append _ _ h6,
    List.take_left' (u32be_length b.DBHeight),
    List.drop_left' (u32be_length b.DBHeight), beToNat_u32be _ h7,
    take_exact (u64be_length b.BodySize), beToNat_u64be _ h8]

theorem buycbentry_roundtrip (e : BuyCBEntry)
    (h1 : e.publicKey.bytes.length = 33) (h2 : e.FactomTxHash.bytes.length = 33)
    (h3 : -2147483648 ≤ e.credits) (h4 : e.credits < 2147483648) :
    BuyCBEntry.UnmarshalBinary e.MarshalBinary = e := by
  simp only [BuyCBEntry.MarshalBinary, BuyCBEntry.UnmarshalBinary,
    Hash.MarshalBinary, List.append_assoc, List.cons_append,
    List.singleton_append, List.nil_append, List.headD_cons, List.drop_one,
    List.tail_cons, readHash_append _ _ h1, readHash_self _ h2,
    List.take_left' (i32be_length e.credits),
    List.drop_left' (i32be_length e.credits), decI32_i32be _ h3 h4]

theorem payentrycbentry_roundtrip (e : PayEntryCBEntry)
    (h1 : e.publicKey.bytes.length = 33) (h2 : e.EntryHash.bytes.length = 33)
    (h3 : -2147483648 ≤ e.credits) (h4 : e.credits < 2147483648)
    (h5 : -9223372036854775808 ≤ e.TimeStamp)
    (h6 : e.TimeStamp < 9223372036854775808)
    (h7 : e.Sig.length < 4294967296) :
    PayEntryCBEntry.UnmarshalBinary e.MarshalBinary = e := by
  simp only [PayEntryCBEntry.MarshalBinary, PayEntryCBEntry.UnmarshalBinary,
    Hash.MarshalBinary, List.append_assoc, List.cons_append,
    List.singleton_append, List.nil_append, List.headD_cons, List.drop_one,
    List.tail_cons, readHash_append _ _ h1, readHash_append _ _ h2,
    List.take_left' (i32be_length e.credits),
    List.drop_left' (i32be_length e.credits), decI32_i32be _ h3 h4,
    List.take_left' (i64be_length e.TimeStamp),
    List.drop_left' (i64be_length e.TimeStamp), decI64_i64be _ h5 h6,
    List.take_left' (u32be_length e.Sig.length),
    List.drop_left' (u32be_length e.Sig.length), beToNat_u32be _ h7,
    List.take_length]

theorem paychaincbentry_roundtrip (e : PayChainCBEntry)
    (h1 : e.publicKey.bytes.length = 33) (h2 : e.EntryHash.bytes.length = 33)
    (h3 : e.ChainIDHash.bytes.length = 33)
    (h4 : e.EntryChainIDHash.bytes.length = 33)
    (h5 : -2147483648 ≤ e.credits) (h6 : e.credits < 2147483648)
    (h7 : e.Sig.length < 4294967296) :
    PayChainCBEntry.UnmarshalBinary e.MarshalBinary = e := by
  simp only [PayChainCBEntry.MarshalBinary, PayChainCBEntry.UnmarshalBinary,
    Hash.MarshalBinary, List.append_assoc, List.cons_append,
    List.singleton_append, List.nil_append, List.headD_cons, List.drop_one,
    List.tail_cons, readHash_append _ _ h1, readHash_append _ _ h2,
    readHash_append _ _ h3, readHash_append _ _ h4,
    List.take_left' (i32be_length e.credits),
    List.drop_left' (i32be_length e.credits), decI32_i32be _ h5 h6,
    List.take_left' (u32be_length e.Sig.length),
    List.drop_left' (u32be_length e.Sig.length), beToNat_u32be _ h7,
    List.take_length]

theorem cbinfo_roundtrip (b : CBInfo)
    (h1 : b.CBHash.bytes.length = 33) (h2 : b.FBHash.bytes.length = 33)
    (h3 : b.ChainID.bytes.length = 33)
    (h4 : b.FBBlockNum < 18446744073709551616) :
    CBInfo.UnmarshalBinary b.MarshalBinary = b := by
  simp only [CBInfo.MarshalBinary, CBInfo.UnmarshalBinary, Hash.MarshalBinary,
    List.append_assoc, readHash_append _ _ h1, readHash_append _ _ h2,
    readHash_self _ h3,
    List.take_left' (u64be_length b.FBBlockNum),
    List.drop_left' (u64be_length b.FBBlockNum), beToNat_u64be _ h4]

/-- **C8**: binary marshaling is a round trip — for every `CBlockHeader`,
`BuyCBEntry`, `PayEntryCBEntry`, `PayChainCBEntry` and `CBInfo` value whose
hash fields carry 33 serialized bytes (and whose numeric fields are in their
Go ranges), `UnmarshalBinary` applied to `MarshalBinary` reconstructs the
value field by field. -/
theorem c8_marshal_roundtrip
    (hd : CBlockHeader) (buy : BuyCBEntry) (pe : PayEntryCBEntry)
    (pc : PayChainCBEntry) (ci : CBInfo)
    (hhd : hd.ChainID.bytes.length = 33 ∧ hd.BodyHash.bytes.length = 33 ∧
      hd.PrevKeyMR.bytes.length = 33 ∧ hd.PrevHash.bytes.length = 33 ∧
      hd.SegmentsMR.bytes.length = 33 ∧ hd.BalanceMR.bytes.length = 33 ∧
      hd.DBHeight < 4294967296 ∧ hd.BodySize < 18446744073709551616)
    (hbuy : buy.publicKey.bytes.length = 33 ∧
      buy.FactomTxHash.bytes.length = 33 ∧
      -2147483648 ≤ buy.credits ∧ buy.credits < 2147483648)
    (hpe : pe.publicKey.bytes.length = 33 ∧ pe.EntryHash.bytes.length = 33 ∧
      -2147483648 ≤ pe.credits ∧ pe.credits < 2147483648 ∧
      -9223372036854775808 ≤ pe.TimeStamp ∧
      pe.TimeStamp < 9223372036854775808 ∧ pe.Sig.length < 4294967296)
    (hpc : pc.publicKey.bytes.length = 33 ∧ pc.EntryHash.bytes.length = 33 ∧
      pc.ChainIDHash.bytes.length = 33 ∧
      pc.EntryChainIDHash.bytes.length = 33 ∧
      -2147483648 ≤ pc.credits ∧ pc.credits < 2147483648 ∧
      pc.Sig.length < 4294967296)
    (hci : ci.CBHash.bytes.length = 33 ∧ ci.FBHash.bytes.length = 33 ∧
      ci.ChainID.bytes.length = 33 ∧ ci.FBBlockNum < 18446744073709551616) :
    CBlockHeader.UnmarshalBinary hd.MarshalBinary = hd ∧
    BuyCBEntry.UnmarshalBinary buy.MarshalBinary = buy ∧
    PayEntryCBEntry.UnmarshalBinary pe.MarshalBinary = pe ∧
    PayChainCBEntry.UnmarshalBinary pc.MarshalBinary = pc ∧
    CBInfo.UnmarshalBinary ci.MarshalBinary = ci := by
  obtain ⟨a1, a2, a3, a4, a5, a6, a7, a8⟩ := hhd
  obtain ⟨b1, b2, b3, b4⟩ := hbuy
  obtain ⟨c1, c2, c3, c4, c5, c6, c7⟩ := hpe
  obtain ⟨d1, d2, d3, d4, d5, d6, d7⟩ := hpc
  obtain ⟨e1, e2, e3, e4⟩ := hci
  exact ⟨cblockheader_roundtrip hd a1 a2 a3 a4 a5 a6 a7 a8,
    buycbentry_roundtrip buy b1 b2 b3 b4,
    payentrycbentry_roundtrip pe c1 c2 c3 c4 c5 c6 c7,
    paychaincbentry_roundtrip pc d1 d2 d3 d4 d5 d6 d7,
    cbinfo_roundtrip ci e1 e2 e3 e4⟩

/-- Witness for C8 at concrete values. -/
theorem c8_marshal_roundtrip_witness :
    CBlockHeader.UnmarshalBinary
        (CBlockHeader.MarshalBinary
          ⟨⟨List.replicate 33 1⟩, ⟨List.replicate 33 2⟩, ⟨List.replicate 33 3⟩,
           ⟨List.replicate 33 4⟩, 7, ⟨List.replicate 33 5⟩,
           ⟨List.replicate 33 6⟩, 9⟩) =
      ⟨⟨List.replicate 33 1⟩, ⟨List.replicate 33 2⟩, ⟨List.replicate 33 3⟩,
       ⟨List.replicate 33 4⟩, 7, ⟨List.replicate 33 5⟩,
       ⟨List.replicate 33 6⟩, 9⟩ ∧
    BuyCBEntry.UnmarshalBinary
        (BuyCBEntry.MarshalBinary
          ⟨4, ⟨List.replicate 33 1⟩, -5, ⟨List.replicate 33 2⟩⟩) =
      ⟨4, ⟨List.replicate 33 1⟩, -5, ⟨List.replicate 33 2⟩⟩ ∧
    PayEntryCBEntry.UnmarshalBinary
        (PayEntryCBEntry.MarshalBinary
          ⟨3, ⟨List.replicate 33 1⟩, -5, ⟨List.replicate 33 2⟩, -77, [9, 9]⟩) =
      ⟨3, ⟨List.replicate 33 1⟩, -5, ⟨List.replicate 33 2⟩, -77, [9, 9]⟩ ∧
    PayChainCBEntry.UnmarshalBinary
        (PayChainCBEntry.MarshalBinary
          ⟨2, ⟨List.replicate 33 1⟩, 11, ⟨List.replicate 33 2⟩,
           ⟨List.replicate 33 3⟩, ⟨List.replicate 33 4⟩, [8]⟩) =
      ⟨2, ⟨List.replicate 33 1⟩, 11, ⟨List.replicate 33 2⟩,
       ⟨List.replicate 33 3⟩, ⟨List.replicate 33 4⟩, [8]⟩ ∧
    CBInfo.UnmarshalBinary
        (CBInfo.MarshalBinary
          ⟨⟨List.replicate 33 1⟩, ⟨List.replicate 33 2⟩, 42,
           ⟨List.replicate 33 3⟩⟩) =
      ⟨⟨List.replicate 33 1⟩, ⟨List.replicate 33 2⟩, 42,
       ⟨List.replicate 33 3⟩⟩ :=
  c8_marshal_roundtrip _ _ _ _ _
    (by decide) (by decide) (by decide) (by decide) (by decide)

set_option maxRecDepth 20000 in
/-- **C10**: `CBlock.UnmarshalBinary` is not total — on an input whose
210-byte header region parses and whose entry count is 1, a first entry
whose leading type byte is `TYPE_SERVER_INDEX` (0, matching none of
`TYPE_BUY`, `TYPE_PAY_CHAIN`, `TYPE_PAY_ENTRY`) leaves the `CBEntries` slot
nil, and the subsequent method call dereferences a nil interface — the
`panicNilEntry` outcome — instead of returning an error value. -/
theorem c10_unmarshal_nil_entry_panic :
    (List.replicate 210 0 ++ u64be 1 ++ [TYPE_SERVER_INDEX]).length =
        CBlockHeader.MarshalledSize + 8 + 1 ∧
    CBlockUnmarshalBinary (List.replicate 210 0 ++ u64be 1 ++ [TYPE_SERVER_INDEX]) =
      CUnmarshal.panicNilEntry := by
  constructor
  · decide
  · decide

/-- **C6** (code bug): the live skip rule in outbound replenishment.
The spec rule skips a candidate whose last attempt is recent
(`now < lastAttempt + 10min`) before 30 failures; the code at
server.go line 1613 tests `time.Now().After(lastAttempt + 10min)`, i.e. the
inverted comparison: with `tries = 1`, a candidate attempted 300 s ago is
*not* skipped (spec says skip), while a candidate attempted 10000 s ago *is*
skipped (spec says do not skip). -/
theorem c6_replenish_skip_inverted :
    replenishSkipsCandidate 1000 700 1 = false ∧
    specReplenishSkipsCandidate 1000 700 1 = true ∧
    replenishSkipsCandidate 10000 0 1 = true ∧
    specReplenishSkipsCandidate 10000 0 1 = false := by
  decide

/-- **C7** counterexample: for `max = 2` the claimed rejection threshold is
`⌊65536/2⌋·2 = 65536`, so the claim says every 16-bit sample is accepted;
but the code computes `limitRange = (65535/2)*2 = 65534` and rejects the
sample `v = 65534`. -/
theorem c7_counterexample :
    (65534 : Nat) < 65536 / 2 * 2 ∧ randomUint16Step 2 65534 = none := by
  decide

/-- **C7** (amended): for every `max ∈ [1, 65535]`, the rejection region of
`randomUint16Number` is exactly the 16-bit samples
`v ≥ ⌊65535/max⌋·max` (the code uses `math.MaxUint16 = 65535`, not 65536):
any sample below that threshold is accepted and `v % max` returned, any
sample at or above it is rejected and resampled. -/
theorem c7_amended_rejection_region (mx v : Nat) (hmx1 : 1 ≤ mx)
    (hmx2 : mx ≤ 65535) (hv : v < 65536) :
    (randomUint16Step mx v = none ↔ 65535 / mx * mx ≤ v) ∧
    (v < 65535 / mx * mx → randomUint16Step mx v = some (v % mx)) := by
  unfold randomUint16Step limitRange
  constructor
  · split
    case isTrue hlt =>
      constructor
      · intro hn
        exact (Option.some_ne_none _ hn).elim
      · intro hle
        exact absurd hlt (not_lt.mpr hle)
    case isFalse hge =>
      exact ⟨fun _ => Nat.le_of_not_lt hge, fun _ => rfl⟩
  · intro hlt
    split
    case isTrue h2 => rfl
    case isFalse hge => exact absurd hlt hge

/-- Witness for C7 (amended) at `max = 2`, `v = 65535`. -/
theorem c7_amended_witness :
    (randomUint16Step 2 65535 = none ↔ 65535 / 2 * 2 ≤ 65535) ∧
    (65535 < 65535 / 2 * 2 → randomUint16Step 2 65535 = some (65535 % 2)) :=
  c7_amended_rejection_region 2 65535 (by decide) (by decide) (by decide)

/-- **C5**: `handleAddPeerMsg` failure modes — for every peer-set state and
non-nil peer `p`, if the shutdown flag is set, or `p`'s addr or nodeID
duplicates an existing federate server's, or `p`'s host is banned with an
unexpired ban, or the total peer count is at least `MaxPeers`, then the call
returns `false`, `p.Shutdown()` is invoked, and the three active peer maps
are unchanged. -/
theorem c5_add_peer_failure_modes (maxPeers : Nat) (s : server)
    (st : peerState) (p : Peer) (now : Int)
    (hcond :
      s.shutdown = true ∨
      s.federateServers.any
        (fun fed => fed.Peer.addr == p.addr || fed.Peer.nodeID == p.nodeID) = true ∨
      (∃ host banEnd, splitHostPort p.addr = some host ∧
        st.banned.lookup host = some banEnd ∧ now < banEnd) ∨
      st.Count ≥ maxPeers) :
    (handleAddPeerMsg maxPeers s st (some p) now).1 = false ∧
    (handleAddPeerMsg maxPeers s st (some p) now).2.2 = true ∧
    (handleAddPeerMsg maxPeers s st (some p) now).2.1.peers = st.peers ∧
    (handleAddPeerMsg maxPeers s st (some p) now).2.1.outboundPeers =
      st.outboundPeers ∧
    (handleAddPeerMsg maxPeers s st (some p) now).2.1.persistentPeers =
      st.persistentPeers := by
  unfold handleAddPeerMsg
  by_cases h1 : s.shutdown = true
  · simp [h1]
  · simp only [h1, Bool.false_eq_true, if_false, ite_false]
    by_cases h2 : s.federateServers.any
        (fun fed => fed.Peer.addr == p.addr || fed.Peer.nodeID == p.nodeID) = true
    · simp [h2]
    · simp only [h2, Bool.false_eq_true, if_false, ite_false]
      cases hsp : splitHostPort p.addr with
      | none => simp
      | some host =>
        simp only
        cases hlk : st.banned.lookup host with
        | some banEnd =>
          by_cases h3 : now < banEnd
          · simp [h3]
          · simp only [h3, if_false, ite_false]
            by_cases h4 : st.Count ≥ maxPeers
            · rw [if_pos (show
                ({ st with banned := st.banned.eraseP (fun kv => kv.1 == host) } :
                  peerState).Count ≥ maxPeers from h4)]
              exact ⟨rfl, rfl, rfl, rfl, rfl⟩
            · exfalso
              rcases hcond with hc | hc | ⟨host2, banEnd2, hc1, hc2, hc3⟩ | hc
              · exact h1 hc
              · exact h2 hc
              · rw [hsp] at hc1
                cases hc1
                rw [hlk] at hc2
                cases hc2
                exact h3 hc3
              · exact h4 hc
        | none =>
          simp only
          by_cases h4 : st.Count ≥ maxPeers
          · rw [if_pos h4]
            exact ⟨rfl, rfl, rfl, rfl, rfl⟩
          · exfalso
            rcases hcond with hc | hc | ⟨host2, banEnd2, hc1, hc2, hc3⟩ | hc
            · exact h1 hc
            · exact h2 hc
            · rw [hsp] at hc1
              cases hc1
              rw [hlk] at hc2
              cases hc2
            · exact h4 hc

/-- Witness for C5: an empty state with `MaxPeers = 0` is over capacity, so
the add fails with a shutdown of the peer and unchanged maps. -/
theorem c5_add_peer_failure_witness :
    (handleAddPeerMsg 0 serverC4 emptyPeerState (some (mkPeer "P" .follower)) 0).1 =
      false ∧
    (handleAddPeerMsg 0 serverC4 emptyPeerState (some (mkPeer "P" .follower)) 0).2.2 =
      true ∧
    (handleAddPeerMsg 0 serverC4 emptyPeerState
        (some (mkPeer "P" .follower)) 0).2.1.peers = emptyPeerState.peers ∧
    (handleAddPeerMsg 0 serverC4 emptyPeerState
        (some (mkPeer "P" .follower)) 0).2.1.outboundPeers =
      emptyPeerState.outboundPeers ∧
    (handleAddPeerMsg 0 serverC4 emptyPeerState
        (some (mkPeer "P" .follower)) 0).2.1.persistentPeers =
      emptyPeerState.persistentPeers :=
  c5_add_peer_failure_modes 0 serverC4 emptyPeerState (mkPeer "P" .follower) 0
    (Or.inr (Or.inr (Or.inr (by decide))))

/-- **C9**: `POST` at the version root — with a non-empty block list and a
path of length 1: a `format` of `""`, `"json"` or `"xml"` whose `data`
parses appends exactly one entry, stamped with the current unix time, to
the tip block and returns that entry; any other `format` yields the
unsupported-unmarshal error with all blocks unchanged; a parse failure
yields the corresponding unmarshal error with all blocks unchanged. -/
theorem c9_post_appends_to_tip (parseJson parseXml : String → Option PlainEntry)
    (blocks : List Block) (path : List String) (format fdata : String)
    (now : Int) (tip : Block) (hpath : path.length = 1)
    (htip : blocks.getLast? = some tip) :
    (∀ e, (format = "" ∨ format = "json") → parseJson fdata = some e →
      serveRESTfulPOST parseJson parseXml blocks path format fdata now =
        some (blocks.dropLast ++
                [{ tip with entries := tip.entries ++ [{ e with TimeStamp := now }] }],
              .ok { e with TimeStamp := now })) ∧
    (∀ e, format = "xml" → parseXml fdata = some e →
      serveRESTfulPOST parseJson parseXml blocks path format fdata now =
        some (blocks.dropLast ++
                [{ tip with entries := tip.entries ++ [{ e with TimeStamp := now }] }],
              .ok { e with TimeStamp := now })) ∧
    (format ≠ "" → format ≠ "json" → format ≠ "xml" →
      serveRESTfulPOST parseJson parseXml blocks path format fdata now =
        some (blocks, .error .unsupportedUnmarshal)) ∧
    ((format = "" ∨ format = "json") → parseJson fdata = none →
      serveRESTfulPOST parseJson parseXml blocks path format fdata now =
        some (blocks, .error .jsonUnmarshal)) ∧
    (format = "xml" → parseXml fdata = none →
      serveRESTfulPOST parseJson parseXml blocks path format fdata now =
        some (blocks, .error .xmlUnmarshal)) := by
  refine ⟨?_, ?_, ?_, ?_, ?_⟩
  · intro e hfmt hparse
    simp [serveRESTfulPOST, post, Block.AddEntry, hpath, htip, hfmt, hparse]
  · intro e hfmt hparse
    have hne : ¬(format = "" ∨ format = "json") := by
      rw [hfmt]; rintro (h | h) <;> simp_all
    simp [serveRESTfulPOST, post, Block.AddEntry, hpath, htip, hfmt, hparse, hne]
  · intro hf1 hf2 hf3
    have hne : ¬(format = "" ∨ format = "json") := by
      rintro (h | h) <;> simp_all
    simp [serveRESTfulPOST, post, hpath, htip, hne, hf3]
  · intro hfmt hparse
    simp [serveRESTfulPOST, post, hpath, htip, hfmt, hparse]
  · intro hfmt hparse
    have hne : ¬(format = "" ∨ format = "json") := by
      rw [hfmt]; rintro (h | h) <;> simp_all
    simp [serveRESTfulPOST, post, hpath, htip, hfmt, hparse, hne]

/-- Witness for C9: posting a JSON entry onto a two-block chain appends the
stamped entry to block 1. -/
theorem c9_post_appends_witness :
    serveRESTfulPOST (fun _ => some ⟨2, [1, 2, 3], [], 0⟩) (fun _ => none)
        [⟨0, none, [], []⟩, ⟨1, none, [], []⟩] ["v1"] "json" "d" 99 =
      some ([⟨0, none, [], []⟩,
             ⟨1, none, [⟨2, [1, 2, 3], [], 99⟩], []⟩],
            .ok ⟨2, [1, 2, 3], [], 99⟩) := by
  have h := (c9_post_appends_to_tip (fun _ => some ⟨2, [1, 2, 3], [], 0⟩)
    (fun _ => none) [⟨0, none, [], []⟩, ⟨1, none, [], []⟩] ["v1"] "json" "d" 99
    ⟨1, none, [], []⟩ (by decide) (by decide)).1 ⟨2, [1, 2, 3], [], 0⟩
    (Or.inr rfl) rfl
  simpa using h

/-! ## List lemmas for the roster combinators -/

theorem getElem?_updAt {α : Type _} (l : List α) (i j : Nat) (f : α → α) :
    (updAt l i f)[j]? = if j = i then (l[j]?).map f else l[j]? := by
  induction l generalizing i j with
  | nil => simp [updAt]
  | cons a l ih =>
    cases i with
    | zero =>
      cases j with
      | zero => simp [updAt]
      | succ j => simp [updAt]
    | succ i =>
      cases j with
      | zero => simp [updAt]
      | succ j => simpa [updAt, Nat.succ_inj] using ih i j

theorem updAt_of_getElem?_none {α : Type _} {l : List α} {i : Nat}
    (f : α → α) (h : l[i]? = none) : updAt l i f = l := by
  induction l generalizing i with
  | nil => rfl
  | cons a l ih =>
    cases i with
    | zero => simp at h
    | succ i =>
      simp only [List.getElem?_cons_succ] at h
      simp [updAt, ih h]

theorem getElem?_mem_of_some {α : Type _} {l : List α} {i : Nat} {a : α}
    (h : l[i]? = some a) : a ∈ l := by
  induction l generalizing i with
  | nil => simp at h
  | cons b l ih =>
    cases i with
    | zero =>
      simp only [List.getElem?_cons_zero, Option.some_inj] at h
      exact h ▸ List.mem_cons_self b l
    | succ i =>
      simp only [List.getElem?_cons_succ] at h
      exact List.mem_cons_of_mem b (ih h)

theorem countP_updAt {α : Type _} (q : α → Bool) (f : α → α) (l : List α)
    (i : Nat) (a : α) (h : l[i]? = some a) :
    (updAt l i f).countP q + (if q a then 1 else 0) =
      l.countP q + (if q (f a) then 1 else 0) := by
  induction l generalizing i with
  | nil => simp at h
  | cons b l ih =>
    cases i with
    | zero =>
      simp only [List.getElem?_cons_zero, Option.some_inj] at h
      subst h
      simp only [updAt, List.countP_cons]
      omega
    | succ i =>
      simp only [List.getElem?_cons_succ] at h
      have := ih i h
      simp only [updAt, List.countP_cons]
      omega

theorem findIdxBy_some_spec {α : Type _} (q : α → Bool) (l : List α) (i : Nat)
    (h : findIdxBy q l = some i) : ∃ a, l[i]? = some a ∧ q a = true := by
  induction l generalizing i with
  | nil => simp [findIdxBy] at h
  | cons b l ih =>
    by_cases hq : q b
    · simp only [findIdxBy, hq, if_true, Option.some_inj] at h
      subst h
      exact ⟨b, by simp, hq⟩
    · simp only [findIdxBy, hq] at h
      cases hfi : findIdxBy q l with
      | none => rw [hfi] at h; simp at h
      | some j =>
        rw [hfi] at h
        simp only [Bool.false_eq_true, if_false, ite_false, Option.map_some',
          Option.some_inj] at h
        subst h
        obtain ⟨a, ha, hqa⟩ := ih j hfi
        exact ⟨a, by simpa using ha, hqa⟩

theorem findIdxBy_none_countP {α : Type _} (q : α → Bool) (l : List α)
    (h : findIdxBy q l = none) : l.countP q = 0 := by
  induction l with
  | nil => simp
  | cons b l ih =>
    by_cases hq : q b
    · simp [findIdxBy, hq] at h
    · simp only [findIdxBy, hq, Bool.false_eq_true, if_false, ite_false,
        Option.map_eq_none'] at h
      simp [List.countP_cons, hq, ih h]

theorem countP_pos_of_getElem? {α : Type _} {q : α → Bool} {l : List α}
    {i : Nat} {a : α} (h : l[i]? = some a) (hq : q a = true) :
    1 ≤ l.countP q := by
  induction l generalizing i with
  | nil => simp at h
  | cons b l ih =>
    cases i with
    | zero =>
      simp only [List.getElem?_cons_zero, Option.some_inj] at h
      subst h
      simp [List.countP_cons, hq]
    | succ i =>
      simp only [List.getElem?_cons_succ] at h
      have := ih h
      simp only [List.countP_cons]
      omega

theorem findIdxBy_updAt_congr {α : Type _} (q : α → Bool) (f : α → α)
    (l : List α) (i : Nat) (a : α) (h : l[i]? = some a)
    (hq : q (f a) = q a) : findIdxBy q (updAt l i f) = findIdxBy q l := by
  induction l generalizing i with
  | nil => rfl
  | cons b l ih =>
    cases i with
    | zero =>
      simp only [List.getElem?_cons_zero, Option.some_inj] at h
      subst h
      simp [updAt, findIdxBy, hq]
    | succ i =>
      simp only [List.getElem?_cons_succ] at h
      simp [updAt, findIdxBy, ih i h]

theorem findBy_eq_findIdxBy {α : Type _} (q : α → Bool) (l : List α) :
    findBy q l = (findIdxBy q l).bind (fun i => l[i]?) := by
  induction l with
  | nil => rfl
  | cons b l ih =>
    by_cases hq : q b
    · simp [findBy, findIdxBy, hq]
    · simp only [findBy, findIdxBy, hq, if_false, ite_false, ih]
      cases findIdxBy q l <;> simp

theorem findBy_mem {α : Type _} {q : α → Bool} {l : List α} {a : α}
    (h : findBy q l = some a) : a ∈ l := by
  induction l with
  | nil => simp [findBy] at h
  | cons b l ih =>
    by_cases hq : q b
    · simp only [findBy, hq, if_true, Option.some_inj] at h
      exact h ▸ List.mem_cons_self b l
    · simp only [findBy, hq, if_false, ite_false] at h
      exact List.mem_cons_of_mem b (ih h)

theorem findBy_prop {α : Type _} {q : α → Bool} {l : List α} {a : α}
    (h : findBy q l = some a) : q a = true := by
  induction l with
  | nil => simp [findBy] at h
  | cons b l ih =>
    by_cases hq : q b
    · simp only [findBy, hq, if_true, Option.some_inj] at h
      exact h ▸ hq
    · simp only [findBy, hq, if_false, ite_false] at h
      exact ih h

theorem findBy_isSome_of_exists {α : Type _} {q : α → Bool} {l : List α}
    {a : α} (hmem : a ∈ l) (hq : q a = true) :
    ∃ b, findBy q l = some b := by
  induction l with
  | nil => simp at hmem
  | cons b l ih =>
    by_cases hqb : q b
    · exact ⟨b, by simp [findBy, hqb]⟩
    · rcases List.mem_cons.mp hmem with rfl | hmem2
      · exact absurd hq hqb
      · obtain ⟨c, hc⟩ := ih hmem2
        exact ⟨c, by simp [findBy, hqb, hc]⟩

/-! ## Count lemmas for the role mutators -/

theorem countRole_demoteFirst_src (l : List federateServer)
    (src tgt : NodeState) (hne : tgt ≠ src)
    (hinv : countRole l src ≤ 1) :
    countRole (demoteFirst l src tgt) src = 0 := by
  unfold demoteFirst setFirstBy
  cases hfi : findIdxBy (fun fs => fs.Peer.nodeState == src) l with
  | none =>
    have := findIdxBy_none_countP _ _ hfi
    simpa [countRole, roleP] using this
  | some i =>
    obtain ⟨a, ha, hqa⟩ := findIdxBy_some_spec _ _ _ hfi
    have hcnt := countP_updAt (roleP src)
      (fun fs => { fs with Peer := { fs.Peer with nodeState := tgt } }) l i a ha
    have hpos : 1 ≤ l.countP (roleP src) :=
      countP_pos_of_getElem? ha (by simpa [roleP] using hqa)
    have h1 : roleP src a = true := by simpa [roleP] using hqa
    have h2 : roleP src { a with Peer := { a.Peer with nodeState := tgt } } = false := by
      simp [roleP]
      exact fun h => absurd h hne
    simp only [h1, h2, Bool.false_eq_true, if_true, if_false, ite_true,
      ite_false] at hcnt
    simp only [countRole] at hinv ⊢
    omega

theorem countRole_demoteFirst_other (l : List federateServer)
    (src tgt r : NodeState) (h1 : r ≠ src) (h2 : r ≠ tgt) :
    countRole (demoteFirst l src tgt) r = countRole l r := by
  unfold demoteFirst setFirstBy
  cases hfi : findIdxBy (fun fs => fs.Peer.nodeState == src) l with
  | none => rfl
  | some i =>
    obtain ⟨a, ha, hqa⟩ := findIdxBy_some_spec _ _ _ hfi
    have hcnt := countP_updAt (roleP r)
      (fun fs => { fs with Peer := { fs.Peer with nodeState := tgt } }) l i a ha
    have hsrc : a.Peer.nodeState = src := by simpa using hqa
    have e1 : roleP r a = false := by simp [roleP, hsrc]; exact fun h => absurd h.symm h1
    have e2 : roleP r { a with Peer := { a.Peer with nodeState := tgt } } = false := by
      simp [roleP]; exact fun h => absurd h.symm h2
    simp only [e1, e2, Bool.false_eq_true, if_false, ite_false] at hcnt
    simp only [countRole]
    omega

theorem countRole_demoteFirst_tgt_le (l : List federateServer)
    (src tgt : NodeState) :
    countRole (demoteFirst l src tgt) tgt ≤ countRole l tgt + 1 := by
  unfold demoteFirst setFirstBy
  cases hfi : findIdxBy (fun fs => fs.Peer.nodeState == src) l with
  | none => simp [countRole]
  | some i =>
    obtain ⟨a, ha, _⟩ := findIdxBy_some_spec _ _ _ hfi
    have hcnt := countP_updAt (roleP tgt)
      (fun fs => { fs with Peer := { fs.Peer with nodeState := tgt } }) l i a ha
    simp only [countRole]
    rcases Bool.eq_false_or_eq_true (roleP tgt a) with hb | hb <;>
      rcases Bool.eq_false_or_eq_true
        (roleP tgt { a with Peer := { a.Peer with nodeState := tgt } }) with
        hb2 | hb2 <;>
      simp only [hb, hb2, Bool.false_eq_true, if_true, if_false, ite_false,
        ite_true] at hcnt <;> omega

theorem countRole_setPeerStateAt_same_le (l : List federateServer) (i : Nat)
    (st : NodeState) :
    countRole (setPeerStateAt l i st) st ≤ countRole l st + 1 := by
  unfold setPeerStateAt
  cases ha : l[i]? with
  | none => simp [updAt_of_getElem?_none _ ha, countRole]
  | some a =>
    have hcnt := countP_updAt (roleP st)
      (fun fs => { fs with Peer := { fs.Peer with nodeState := st } }) l i a ha
    simp only [countRole]
    rcases Bool.eq_false_or_eq_true (roleP st a) with hb | hb <;>
      rcases Bool.eq_false_or_eq_true
        (roleP st { a with Peer := { a.Peer with nodeState := st } }) with
        hb2 | hb2 <;>
      simp only [hb, hb2, Bool.false_eq_true, if_true, if_false, ite_false,
        ite_true] at hcnt <;> omega

theorem countRole_setPeerStateAt_other_le (l : List federateServer) (i : Nat)
    (st r : NodeState) (h : r ≠ st) :
    countRole (setPeerStateAt l i r) st ≤ countRole l st := by
  unfold setPeerStateAt
  cases ha : l[i]? with
  | none => simp [updAt_of_getElem?_none _ ha, countRole]
  | some a =>
    have hcnt := countP_updAt (roleP st)
      (fun fs => { fs with Peer := { fs.Peer with nodeState := r } }) l i a ha
    have e2 : roleP st { a with Peer := { a.Peer with nodeState := r } } = false := by
      simp [roleP]; exact fun hh => absurd hh.symm h.symm
    simp only [countRole]
    rcases Bool.eq_false_or_eq_true (roleP st a) with hb | hb <;>
      simp only [hb, e2, Bool.false_eq_true, if_true, if_false, ite_false,
        ite_true] at hcnt <;> omega

theorem countRole_setPeerStateAt_same_zero (l : List federateServer) (i : Nat)
    (st : NodeState) (h0 : countRole l st = 0) :
    countRole (setPeerStateAt l i st) st ≤ 1 := by
  have := countRole_setPeerStateAt_same_le l i st
  omega

theorem demoteFirst_getElem (l : List federateServer) (src tgt : NodeState)
    (j : Nat) (a : federateServer)
    (hj : findIdxBy (fun fs => fs.Peer.nodeState == src) l = some j)
    (ha : l[j]? = some a) :
    (demoteFirst l src tgt)[j]? =
      some { a with Peer := { a.Peer with nodeState := tgt } } := by
  unfold demoteFirst setFirstBy
  rw [hj, getElem?_updAt, if_pos rfl, ha]
  rfl

theorem demote_set_getElem (l : List federateServer) (src tgt newSt : NodeState)
    (i j : Nat) (a : federateServer)
    (hj : findIdxBy (fun fs => fs.Peer.nodeState == src) l = some j)
    (ha : l[j]? = some a) (hne : j ≠ i) :
    (setPeerStateAt (demoteFirst l src tgt) i newSt)[j]? =
      some { a with Peer := { a.Peer with nodeState := tgt } } := by
  unfold setPeerStateAt
  rw [getElem?_updAt, if_neg hne]
  exact demoteFirst_getElem l src tgt j a hj ha

/-- **C1** counterexample: the roster `[A:Leader, B:LeaderPrev, C:Follower]`
satisfies the at-most-one invariant, yet `SetLeaderPeer` targeting `C`
(index 2) demotes `A` to `LeaderPrev` without demoting the existing
`LeaderPrev` `B`, leaving two peers in role `LeaderPrev`. -/
theorem c1_counterexample :
    RosterInv serverC1.federateServers ∧
    countRole ((SetLeaderPeer serverC1 2).federateServers) .leaderPrev = 2 := by
  constructor
  · refine ⟨?_, ?_, ?_⟩ <;> decide
  · decide

/-- **C1** (corrected): on a roster satisfying the at-most-one invariant,
`setLeaderElect`, `setLeaderElectByID`, `SetPrevLeaderPeer` and
`SetPrevLeaderByID` preserve the full invariant; `SetLeaderPeer` and
`SetLeaderPeerByID` preserve at-most-one `Leader` and at-most-one
`LeaderElect`, and preserve at-most-one `LeaderPrev` provided no peer holds
`LeaderPrev` beforehand; a displaced Leader (other than the target) is
demoted to `LeaderPrev` and a displaced `LeaderElect` or `LeaderPrev`
(other than the target) is demoted to `Follower`. -/
theorem c1_amended_role_mutators (s : server) (i : Nat) (pid : String)
    (hinv : RosterInv s.federateServers) :
    RosterInv ((setLeaderElect s i).federateServers) ∧
    RosterInv ((setLeaderElectByID s pid).federateServers) ∧
    RosterInv ((SetPrevLeaderPeer s i).federateServers) ∧
    RosterInv ((SetPrevLeaderByID s pid).federateServers) ∧
    countRole ((SetLeaderPeer s i).federateServers) .leader ≤ 1 ∧
    countRole ((SetLeaderPeer s i).federateServers) .leaderElect ≤ 1 ∧
    countRole ((SetLeaderPeerByID s pid).federateServers) .leader ≤ 1 ∧
    countRole ((SetLeaderPeerByID s pid).federateServers) .leaderElect ≤ 1 ∧
    (countRole s.federateServers .leaderPrev = 0 →
      RosterInv ((SetLeaderPeer s i).federateServers) ∧
      RosterInv ((SetLeaderPeerByID s pid).federateServers)) ∧
    (∀ j a, findIdxBy (fun fs => fs.Peer.nodeState == NodeState.leader)
        s.federateServers = some j → s.federateServers[j]? = some a → j ≠ i →
      ((SetLeaderPeer s i).federateServers)[j]? =
        some { a with Peer := { a.Peer with nodeState := .leaderPrev } }) ∧
    (∀ j a, findIdxBy (fun fs => fs.Peer.nodeState == NodeState.leaderElect)
        s.federateServers = some j → s.federateServers[j]? = some a → j ≠ i →
      ((setLeaderElect s i).federateServers)[j]? =
        some { a with Peer := { a.Peer with nodeState := .follower } }) ∧
    (∀ j a, findIdxBy (fun fs => fs.Peer.nodeState == NodeState.leaderPrev)
        s.federateServers = some j → s.federateServers[j]? = some a → j ≠ i →
      ((SetPrevLeaderPeer s i).federateServers)[j]? =
        some { a with Peer := { a.Peer with nodeState := .follower } }) := by
  obtain ⟨hL, hE, hP⟩ := hinv
  -- counts after each of the three demotion phases
  have dE0 : countRole (demoteFirst s.federateServers .leaderElect .follower)
      .leaderElect = 0 :=
    countRole_demoteFirst_src _ _ _ (by decide) hE
  have dEL : countRole (demoteFirst s.federateServers .leaderElect .follower)
      .leader = countRole s.federateServers .leader :=
    countRole_demoteFirst_other _ _ _ _ (by decide) (by decide)
  have dEP : countRole (demoteFirst s.federateServers .leaderElect .follower)
      .leaderPrev = countRole s.federateServers .leaderPrev :=
    countRole_demoteFirst_other _ _ _ _ (by decide) (by decide)
  have dP0 : countRole (demoteFirst s.federateServers .leaderPrev .follower)
      .leaderPrev = 0 :=
    countRole_demoteFirst_src _ _ _ (by decide) hP
  have dPL : countRole (demoteFirst s.federateServers .leaderPrev .follower)
      .leader = countRole s.federateServers .leader :=
    countRole_demoteFirst_other _ _ _ _ (by decide) (by decide)
  have dPE : countRole (demoteFirst s.federateServers .leaderPrev .follower)
      .leaderElect = countRole s.federateServers .leaderElect :=
    countRole_demoteFirst_other _ _ _ _ (by decide) (by decide)
  have dL0 : countRole (demoteFirst s.federateServers .leader .leaderPrev)
      .leader = 0 :=
    countRole_demoteFirst_src _ _ _ (by decide) hL
  have dLE : countRole (demoteFirst s.federateServers .leader .leaderPrev)
      .leaderElect = countRole s.federateServers .leaderElect :=
    countRole_demoteFirst_other _ _ _ _ (by decide) (by decide)
  have dLP : countRole (demoteFirst s.federateServers .leader .leaderPrev)
      .leaderPrev ≤ countRole s.federateServers .leaderPrev + 1 :=
    countRole_demoteFirst_tgt_le _ _ _
  refine ⟨?_, ?_, ?_, ?_, ?_, ?_, ?_, ?_, ?_, ?_, ?_, ?_⟩
  · -- setLeaderElect preserves the invariant
    refine ⟨?_, ?_, ?_⟩
    · exact le_trans (countRole_setPeerStateAt_other_le _ i _ _ (by decide))
        (le_trans (le_of_eq dEL) hL)
    · exact countRole_setPeerStateAt_same_zero _ i _ dE0
    · exact le_trans (countRole_setPeerStateAt_other_le _ i _ _ (by decide))
        (le_trans (le_of_eq dEP) hP)
  · -- setLeaderElectByID preserves the invariant
    show RosterInv _
    unfold setLeaderElectByID
    cases hk : findIdxBy (fun fs => fs.Peer.nodeID == pid)
        (demoteFirst s.federateServers .leaderElect .follower) with
    | some k =>
      simp only [hk]
      refine ⟨?_, ?_, ?_⟩
      · exact le_trans (countRole_setPeerStateAt_other_le _ k _ _ (by decide))
          (le_trans (le_of_eq dEL) hL)
      · exact countRole_setPeerStateAt_same_zero _ k _ dE0
      · exact le_trans (countRole_setPeerStateAt_other_le _ k _ _ (by decide))
          (le_trans (le_of_eq dEP) hP)
    | none =>
      simp only [hk]
      exact ⟨le_trans (le_of_eq dEL) hL, by omega,
        le_trans (le_of_eq dEP) hP⟩
  · -- SetPrevLeaderPeer preserves the invariant
    refine ⟨?_, ?_, ?_⟩
    · exact le_trans (countRole_setPeerStateAt_other_le _ i _ _ (by decide))
        (le_trans (le_of_eq dPL) hL)
    · exact le_trans (countRole_setPeerStateAt_other_le _ i _ _ (by decide))
        (le_trans (le_of_eq dPE) hE)
    · exact countRole_setPeerStateAt_same_zero _ i _ dP0
  · -- SetPrevLeaderByID preserves the invariant
    show RosterInv _
    unfold SetPrevLeaderByID
    cases hk : findIdxBy (fun fs => fs.Peer.nodeID == pid)
        (demoteFirst s.federateServers .leaderPrev .follower) with
    | some k =>
      simp only [hk]
      refine ⟨?_, ?_, ?_⟩
      · exact le_trans (countRole_setPeerStateAt_other_le _ k _ _ (by decide))
          (le_trans (le_of_eq dPL) hL)
      · exact le_trans (countRole_setPeerStateAt_other_le _ k _ _ (by decide))
          (le_trans (le_of_eq dPE) hE)
      · exact countRole_setPeerStateAt_same_zero _ k _ dP0
    | none =>
      simp only [hk]
      exact ⟨le_trans (le_of_eq dPL) hL, le_trans (le_of_eq dPE) hE, by omega⟩
  · -- SetLeaderPeer keeps at most one Leader
    exact countRole_setPeerStateAt_same_zero _ i _ dL0
  · -- SetLeaderPeer keeps at most one LeaderElect
    exact le_trans (countRole_setPeerStateAt_other_le _ i _ _ (by decide))
      (le_trans (le_of_eq dLE) hE)
  · -- SetLeaderPeerByID keeps at most one Leader
    show countRole _ _ ≤ 1
    unfold SetLeaderPeerByID
    cases hk : findIdxBy (fun fs => fs.Peer.nodeID == pid)
        (demoteFirst s.federateServers .leader .leaderPrev) with
    | some k =>
      simp only [hk]
      exact countRole_setPeerStateAt_same_zero _ k _ dL0
    | none =>
      simp only [hk]
      omega
  · -- SetLeaderPeerByID keeps at most one LeaderElect
    show countRole _ _ ≤ 1
    unfold SetLeaderPeerByID
    cases hk : findIdxBy (fun fs => fs.Peer.nodeID == pid)
        (demoteFirst s.federateServers .leader .leaderPrev) with
    | some k =>
      simp only [hk]
      exact le_trans (countRole_setPeerStateAt_other_le _ k _ _ (by decide))
        (le_trans (le_of_eq dLE) hE)
    | none =>
      simp only [hk]
      exact le_trans (le_of_eq dLE) hE
  · -- with no pre-existing LeaderPrev the Leader mutators keep the full invariant
    intro hp0
    constructor
    · refine ⟨countRole_setPeerStateAt_same_zero _ i _ dL0,
        le_trans (countRole_setPeerStateAt_other_le _ i _ _ (by decide))
          (le_trans (le_of_eq dLE) hE), ?_⟩
      exact le_trans (countRole_setPeerStateAt_other_le _ i _ _ (by decide))
        (by omega)
    · show RosterInv _
      unfold SetLeaderPeerByID
      cases hk : findIdxBy (fun fs => fs.Peer.nodeID == pid)
          (demoteFirst s.federateServers .leader .leaderPrev) with
      | some k =>
        simp only [hk]
        refine ⟨countRole_setPeerStateAt_same_zero _ k _ dL0,
          le_trans (countRole_setPeerStateAt_other_le _ k _ _ (by decide))
            (le_trans (le_of_eq dLE) hE), ?_⟩
        exact le_trans (countRole_setPeerStateAt_other_le _ k _ _ (by decide))
          (by omega)
      | none =>
        simp only [hk]
        exact ⟨by omega, le_trans (le_of_eq dLE) hE, by omega⟩
  · -- displaced Leader demoted to LeaderPrev
    intro j a hj ha hne
    exact demote_set_getElem _ _ _ _ i j a hj ha hne
  · -- displaced LeaderElect demoted to Follower
    intro j a hj ha hne
    exact demote_set_getElem _ _ _ _ i j a hj ha hne
  · -- displaced LeaderPrev demoted to Follower
    intro j a hj ha hne
    exact demote_set_getElem _ _ _ _ i j a hj ha hne

/-- Witness for C1 (corrected) on the concrete roster, target index 2,
target id `"C"`. -/
theorem c1_amended_witness :
    RosterInv ((setLeaderElect serverC1 2).federateServers) ∧
    RosterInv ((setLeaderElectByID serverC1 "C").federateServers) ∧
    RosterInv ((SetPrevLeaderPeer serverC1 2).federateServers) ∧
    RosterInv ((SetPrevLeaderByID serverC1 "C").federateServers) ∧
    countRole ((SetLeaderPeer serverC1 2).federateServers) .leader ≤ 1 ∧
    countRole ((SetLeaderPeer serverC1 2).federateServers) .leaderElect ≤ 1 ∧
    countRole ((SetLeaderPeerByID serverC1 "C").federateServers) .leader ≤ 1 ∧
    countRole ((SetLeaderPeerByID serverC1 "C").federateServers) .leaderElect ≤ 1 ∧
    (countRole serverC1.federateServers .leaderPrev = 0 →
      RosterInv ((SetLeaderPeer serverC1 2).federateServers) ∧
      RosterInv ((SetLeaderPeerByID serverC1 "C").federateServers)) ∧
    (∀ j a, findIdxBy (fun fs => fs.Peer.nodeState == NodeState.leader)
        serverC1.federateServers = some j →
      serverC1.federateServers[j]? = some a → j ≠ 2 →
      ((SetLeaderPeer serverC1 2).federateServers)[j]? =
        some { a with Peer := { a.Peer with nodeState := .leaderPrev } }) ∧
    (∀ j a, findIdxBy (fun fs => fs.Peer.nodeState == NodeState.leaderElect)
        serverC1.federateServers = some j →
      serverC1.federateServers[j]? = some a → j ≠ 2 →
      ((setLeaderElect serverC1 2).federateServers)[j]? =
        some { a with Peer := { a.Peer with nodeState := .follower } }) ∧
    (∀ j a, findIdxBy (fun fs => fs.Peer.nodeState == NodeState.leaderPrev)
        serverC1.federateServers = some j →
      serverC1.federateServers[j]? = some a → j ≠ 2 →
      ((SetPrevLeaderPeer serverC1 2).federateServers)[j]? =
        some { a with Peer := { a.Peer with nodeState := .follower } }) :=
  c1_amended_role_mutators serverC1 2 "C" ⟨by decide, by decide, by decide⟩

/-! ## Sort lemmas -/

theorem mem_insertByStartTime {a b : federateServer}
    {l : List federateServer} : b ∈ insertByStartTime a l ↔ b = a ∨ b ∈ l := by
  induction l with
  | nil => simp [insertByStartTime]
  | cons c l ih =>
    unfold insertByStartTime
    split <;> simp only [List.mem_cons, ih] <;> tauto

theorem mem_sortByStartTime {a : federateServer} {l : List federateServer} :
    a ∈ sortByStartTime l ↔ a ∈ l := by
  induction l with
  | nil => simp [sortByStartTime]
  | cons b l ih =>
    simp only [sortByStartTime, mem_insertByStartTime, ih, List.mem_cons]

theorem insertByStartTime_ne_nil (a : federateServer)
    (l : List federateServer) : insertByStartTime a l ≠ [] := by
  cases l with
  | nil => simp [insertByStartTime]
  | cons b l =>
    unfold insertByStartTime
    split <;> simp

theorem sortByStartTime_ne_nil {l : List federateServer} (h : l ≠ []) :
    sortByStartTime l ≠ [] := by
  cases l with
  | nil => exact absurd rfl h
  | cons a l => exact insertByStartTime_ne_nil a (sortByStartTime l)

theorem mem_insertByLeaderLast {a b : federateServer}
    {l : List federateServer} : b ∈ insertByLeaderLast a l ↔ b = a ∨ b ∈ l := by
  induction l with
  | nil => simp [insertByLeaderLast]
  | cons c l ih =>
    unfold insertByLeaderLast
    split <;> simp only [List.mem_cons, ih] <;> tauto

theorem mem_sortByLeaderLast {a : federateServer} {l : List federateServer} :
    a ∈ sortByLeaderLast l ↔ a ∈ l := by
  induction l with
  | nil => simp [sortByLeaderLast]
  | cons b l ih =>
    simp only [sortByLeaderLast, mem_insertByLeaderLast, ih, List.mem_cons]

/-- **C4**: on a roster with pairwise-distinct node IDs, a node whose role
is `Candidate` running `selectCurrentleader` broadcasts nothing and changes
nothing (in particular it never promotes itself to Leader), including the
case where the non-candidate partition is empty and candidates exist. -/
theorem c4_candidate_never_leader (s : server) (h : Nat)
    (myfs : federateServer) (hself : GetMyFederateServer s = some myfs)
    (hst : myfs.Peer.nodeState = .candidate)
    (hnodup : (s.federateServers.map (fun fs => fs.Peer.nodeID)).Nodup) :
    selectCurrentleader s h = some (s, []) := by
  have hself2 : findBy (fun fs => fs.Peer.nodeID == s.nodeID)
      s.federateServers = some myfs := by
    simpa [GetMyFederateServer, GetFederateServerByID] using hself
  have hmem : myfs ∈ s.federateServers := findBy_mem hself2
  have hid : myfs.Peer.nodeID = s.nodeID := by
    simpa using findBy_prop hself2
  unfold selectCurrentleader
  rw [hself]
  simp only [nonCandidateServers]
  rw [if_neg (by simp [hst])]
  by_cases hnc :
      s.federateServers.filter (fun fs => !(fs.Peer.nodeState == .candidate)) = []
  · have hcmem : myfs ∈
        s.federateServers.filter (fun fs => fs.Peer.nodeState == .candidate) :=
      List.mem_filter.mpr ⟨hmem, by simp [hst]⟩
    rw [if_pos ⟨by simp [hnc], List.length_pos.mpr (List.ne_nil_of_mem hcmem)⟩]
  · rw [if_neg (by
      rintro ⟨h1, _⟩
      exact hnc (List.length_eq_zero.mp h1))]
    rw [if_neg (by
      rintro (h1 | h1)
      · rw [hst] at h1
        cases h1
      · rw [hst] at h1
        simp at h1)]
    rw [if_pos (by simp [hst])]
    cases hel : GetLeaderElect s with
    | some e => simp only [hel]
    | none =>
      simp only [hel]
      cases hpl : GetPrevLeaderPeer s with
      | some prev =>
        simp only [hpl]
        rw [if_neg (by
          rintro ⟨h1, _⟩
          rw [hst] at h1
          simp at h1)]
      | none =>
        simp only [hpl]
        cases hsort : sortByStartTime
            (s.federateServers.filter
              (fun fs => !(fs.Peer.nodeState == .candidate))) with
        | nil => exact absurd hsort (sortByStartTime_ne_nil hnc)
        | cons fs0 rest =>
          simp only [hsort]
          rw [if_neg (by
            intro h1
            have hfs0 : fs0 ∈ s.federateServers.filter
                (fun fs => !(fs.Peer.nodeState == .candidate)) :=
              mem_sortByStartTime.mp (hsort ▸ List.mem_cons_self fs0 rest)
            obtain ⟨hfs0mem, hfs0nc⟩ := List.mem_filter.mp hfs0
            have : fs0 = myfs :=
              List.inj_on_of_nodup_map hnodup hfs0mem hmem (h1.trans hid.symm)
            rw [this, hst] at hfs0nc
            simp at hfs0nc)]

/-- Witness for C4: the roster `[K:Candidate]` with self `K` — the
non-candidate partition is empty, candidates exist, and the call is a
no-op with no broadcast. -/
theorem c4_candidate_never_leader_witness :
    selectCurrentleader serverC4 20 = some (serverC4, []) :=
  c4_candidate_never_leader serverC4 20 (mkFS "K" .candidate 0 0)
    (by decide) (by decide) (by decide)

theorem nodup_map_filter (l : List federateServer) (p : federateServer → Bool)
    (h : (l.map (fun fs => fs.Peer.nodeID)).Nodup) :
    ((l.filter p).map (fun fs => fs.Peer.nodeID)).Nodup :=
  List.Nodup.sublist ((l.filter_sublist).map _) h

/-- **C3**: `selectNextLeader` — a non-leader changes nothing and
broadcasts nothing; a leader whose non-candidate partition is exactly
itself extends its own term to `h + 3` with no broadcast; otherwise the
leader takes the first entry of the `LeaderLast`-sorted non-candidates
with a different node ID as `next` and broadcasts one `NextLeader` message
`(self, next, StartDBHeight + Term, sign(self ++ next))`, setting
`Notified`. -/
theorem c3_select_next_leader (s : server) (h : Nat) (myfs : federateServer)
    (P : leaderPolicy) (hself : GetMyFederateServer s = some myfs)
    (hnodup : (s.federateServers.map (fun fs => fs.Peer.nodeID)).Nodup) :
    (myfs.Peer.nodeState ≠ .leader → selectNextLeader s h = some (s, [])) ∧
    (myfs.Peer.nodeState = .leader → s.myLeaderPolicy = some P →
      (nonCandidateServers s).1 = [myfs] →
      selectNextLeader s h =
        some ({ s with
                myLeaderPolicy := some { P with StartDBHeight := u32 (h + 3) } },
              [])) ∧
    (myfs.Peer.nodeState = .leader → s.myLeaderPolicy = some P →
      (nonCandidateServers s).1 ≠ [myfs] →
      ∃ next, findBy (fun fed => !(fed.Peer.nodeID == s.nodeID))
          (sortByLeaderLast (nonCandidateServers s).1) = some next ∧
        next.Peer.nodeID ≠ s.nodeID ∧
        selectNextLeader s h =
          some ({ s with myLeaderPolicy := some { P with Notified := true } },
                [WireMsg.nextLeader s.nodeID next.Peer.nodeID
                  (u32 (P.StartDBHeight + P.Term))
                  (signMsg s.nodeID (s.nodeID ++ next.Peer.nodeID))])) := by
  have hself2 : findBy (fun fs => fs.Peer.nodeID == s.nodeID)
      s.federateServers = some myfs := by
    simpa [GetMyFederateServer, GetFederateServerByID] using hself
  have hmem : myfs ∈ s.federateServers := findBy_mem hself2
  have hid : myfs.Peer.nodeID = s.nodeID := by
    simpa using findBy_prop hself2
  refine ⟨?_, ?_, ?_⟩
  · intro hne
    unfold selectNextLeader
    simp only [hself]
    rw [if_pos hne]
  · intro hl hpol hsing
    have hsing' : s.federateServers.filter
        (fun fs => !(fs.Peer.nodeState == .candidate)) = [myfs] := hsing
    unfold selectNextLeader
    simp only [hself]
    rw [if_neg (by simp [hl])]
    simp only [nonCandidateServers, hsing', hid, if_pos, hpol]
  · intro hl hpol hnsing
    have hmyfsnc : myfs ∈ s.federateServers.filter
        (fun fs => !(fs.Peer.nodeState == .candidate)) :=
      List.mem_filter.mpr ⟨hmem, by simp [hl]⟩
    -- a non-candidate with a different node ID exists
    have hexists : ∃ x ∈ s.federateServers.filter
        (fun fs => !(fs.Peer.nodeState == .candidate)),
        x.Peer.nodeID ≠ s.nodeID := by
      cases hfil : s.federateServers.filter
          (fun fs => !(fs.Peer.nodeState == .candidate)) with
      | nil => rw [hfil] at hmyfsnc; cases hmyfsnc
      | cons fs0 rest =>
        cases rest with
        | nil =>
          refine ⟨fs0, by simp, ?_⟩
          intro heq
          have hfs0mem : fs0 ∈ s.federateServers :=
            (List.mem_filter.mp (by rw [hfil]; exact List.mem_cons_self _ _)).1
          have : fs0 = myfs :=
            List.inj_on_of_nodup_map hnodup hfs0mem hmem (heq.trans hid.symm)
          exact hnsing (by rw [show (nonCandidateServers s).1 =
            s.federateServers.filter
              (fun fs => !(fs.Peer.nodeState == .candidate)) from rfl,
            hfil, this])
        | cons f1 r1 =>
          have hnd : ((s.federateServers.filter
              (fun fs => !(fs.Peer.nodeState == .candidate))).map
                (fun fs => fs.Peer.nodeID)).Nodup :=
            nodup_map_filter _ _ hnodup
          rw [hfil] at hnd
          simp only [List.map_cons, List.nodup_cons, List.mem_cons,
            List.mem_map] at hnd
          by_cases h0 : fs0.Peer.nodeID = s.nodeID
          · refine ⟨f1, by simp, ?_⟩
            intro h1
            exact hnd.1 (Or.inl (h0.trans h1.symm))
          · exact ⟨fs0, by simp, h0⟩
    obtain ⟨x, hxmem, hxid⟩ := hexists
    obtain ⟨next, hnext⟩ := findBy_isSome_of_exists
      (q := fun fed => !(fed.Peer.nodeID == s.nodeID))
      (mem_sortByLeaderLast.mpr hxmem) (by simp [hxid])
    have hnextid : next.Peer.nodeID ≠ s.nodeID := by
      have := findBy_prop hnext
      simpa using this
    refine ⟨next, hnext, hnextid, ?_⟩
    unfold selectNextLeader
    simp only [hself]
    rw [if_neg (by simp [hl])]
    simp only [nonCandidateServers]
    cases hfil : s.federateServers.filter
        (fun fs => !(fs.Peer.nodeState == .candidate)) with
    | nil => rw [hfil] at hmyfsnc; cases hmyfsnc
    | cons fs0 rest =>
      have hnext' : findBy (fun fed => !(fed.Peer.nodeID == s.nodeID))
          (sortByLeaderLast (fs0 :: rest)) = some next := by
        rw [← hfil]
        exact hnext
      cases rest with
      | nil =>
        have h0 : ¬fs0.Peer.nodeID = s.nodeID := by
          intro heq
          have hfs0mem : fs0 ∈ s.federateServers :=
            (List.mem_filter.mp (by rw [hfil]; exact List.mem_cons_self _ _)).1
          have : fs0 = myfs :=
            List.inj_on_of_nodup_map hnodup hfs0mem hmem (heq.trans hid.symm)
          exact hnsing (by rw [show (nonCandidateServers s).1 =
            s.federateServers.filter
              (fun fs => !(fs.Peer.nodeState == .candidate)) from rfl,
            hfil, this])
        simp only [if_neg h0, hnext', hpol]
      | cons f1 r1 =>
        simp only [hnext', hpol]

/-- Witness for C3 at the concrete three-server roster: leader `A`
(LeaderLast 5) with followers `B` (LeaderLast 1) and `C` (LeaderLast 3)
selects `B` and broadcasts `NextLeader(A, B, 4, sign(AB))`. -/
theorem c3_select_next_leader_witness :
    ∃ next, findBy (fun fed => !(fed.Peer.nodeID == serverC3.nodeID))
        (sortByLeaderLast (nonCandidateServers serverC3).1) = some next ∧
      next.Peer.nodeID ≠ serverC3.nodeID ∧
      selectNextLeader serverC3 2 =
        some ({ serverC3 with
                myLeaderPolicy := some ⟨none, 2, 2, 1, true, false⟩ },
              [WireMsg.nextLeader serverC3.nodeID next.Peer.nodeID
                (u32 (2 + 2))
                (signMsg serverC3.nodeID
                  (serverC3.nodeID ++ next.Peer.nodeID))]) :=
  (c3_select_next_leader serverC3 2 (mkFS "A" .leader 5 0)
      ⟨none, 2, 2, 1, false, false⟩ (by decide) (by decide)).2.2
    (by decide) (by decide) (by decide)

/-! ## Index lemmas for the regime-change proof -/

theorem findIdxBy_updAt_congr_all {α : Type _} (q : α → Bool) (f : α → α)
    (l : List α) (i : Nat) (hq : ∀ x, q (f x) = q x) :
    findIdxBy q (updAt l i f) = findIdxBy q l := by
  cases hx : l[i]? with
  | some a => exact findIdxBy_updAt_congr q f l i a hx (hq a)
  | none => rw [updAt_of_getElem?_none f hx]

theorem getElem?_setPeerStateAt_ne (l : List federateServer) (i : Nat)
    (st : NodeState) (j : Nat) (hne : j ≠ i) :
    (setPeerStateAt l i st)[j]? = l[j]? := by
  unfold setPeerStateAt
  rw [getElem?_updAt, if_neg hne]

theorem getElem?_setPeerStateAt_eq (l : List federateServer) (i : Nat)
    (st : NodeState) (a : federateServer) (ha : l[i]? = some a) :
    (setPeerStateAt l i st)[i]? =
      some { a with Peer := { a.Peer with nodeState := st } } := by
  unfold setPeerStateAt
  rw [getElem?_updAt, if_pos rfl, ha]
  rfl

theorem getElem?_demoteFirst_of_ne_state (l : List federateServer)
    (src tgt : NodeState) (i : Nat) (a : federateServer)
    (ha : l[i]? = some a) (hne : a.Peer.nodeState ≠ src) :
    (demoteFirst l src tgt)[i]? = some a := by
  unfold demoteFirst setFirstBy
  cases hj : findIdxBy (fun fs => fs.Peer.nodeState == src) l with
  | none => exact ha
  | some j =>
    obtain ⟨b, hb, hqb⟩ := findIdxBy_some_spec _ _ _ hj
    have hij : i ≠ j := by
      intro heq
      rw [heq, hb] at ha
      cases ha
      exact hne (by simpa using hqb)
    rw [getElem?_updAt, if_neg hij]
    exact ha

theorem findIdxBy_nodeID_setFirstBy (p : federateServer → Bool)
    (f : federateServer → federateServer) (l : List federateServer)
    (pid : String) (hf : ∀ x, (f x).Peer.nodeID = x.Peer.nodeID) :
    findIdxBy (fun fs => fs.Peer.nodeID == pid) (setFirstBy p f l) =
      findIdxBy (fun fs => fs.Peer.nodeID == pid) l := by
  unfold setFirstBy
  cases hj : findIdxBy p l with
  | none => rfl
  | some j => exact findIdxBy_updAt_congr_all _ _ _ _ (fun x => by simp [hf x])

theorem findIdxBy_nodeID_demoteFirst (l : List federateServer)
    (src tgt : NodeState) (pid : String) :
    findIdxBy (fun fs => fs.Peer.nodeID == pid) (demoteFirst l src tgt) =
      findIdxBy (fun fs => fs.Peer.nodeID == pid) l :=
  findIdxBy_nodeID_setFirstBy _ _ l pid (fun _ => rfl)

theorem findIdxBy_nodeID_setPeerStateAt (l : List federateServer) (i : Nat)
    (st : NodeState) (pid : String) :
    findIdxBy (fun fs => fs.Peer.nodeID == pid) (setPeerStateAt l i st) =
      findIdxBy (fun fs => fs.Peer.nodeID == pid) l := by
  unfold setPeerStateAt
  exact findIdxBy_updAt_congr_all _ _ _ _ (fun x => rfl)

theorem findIdxBy_roleP_demoteFirst (l : List federateServer)
    (src tgt st : NodeState) (h1 : st ≠ src) (h2 : st ≠ tgt) :
    findIdxBy (fun fs => fs.Peer.nodeState == st) (demoteFirst l src tgt) =
      findIdxBy (fun fs => fs.Peer.nodeState == st) l := by
  unfold demoteFirst setFirstBy
  cases hj : findIdxBy (fun fs => fs.Peer.nodeState == src) l with
  | none => rfl
  | some j =>
    obtain ⟨a, ha, hqa⟩ := findIdxBy_some_spec _ _ _ hj
    refine findIdxBy_updAt_congr _ _ _ _ a ha ?_
    have hsrc : a.Peer.nodeState = src := by simpa using hqa
    simp only [hsrc]
    simp [BEq.beq]
    constructor
    · intro hh
      exact absurd hh.symm h2
    · intro hh
      exact absurd hh.symm h1

theorem findIdxBy_roleP_setPeerStateAt (l : List federateServer) (i : Nat)
    (st qst : NodeState) (a : federateServer) (ha : l[i]? = some a)
    (h1 : a.Peer.nodeState ≠ qst) (h2 : st ≠ qst) :
    findIdxBy (fun fs => fs.Peer.nodeState == qst) (setPeerStateAt l i st) =
      findIdxBy (fun fs => fs.Peer.nodeState == qst) l := by
  unfold setPeerStateAt
  refine findIdxBy_updAt_congr _ _ _ _ a ha ?_
  simp [BEq.beq]
  constructor
  · intro hh
    exact absurd hh.symm (fun he => h2 he.symm)
  · intro hh
    exact absurd hh h1

theorem map_nodeID_updAt (l : List federateServer) (i : Nat)
    (f : federateServer → federateServer)
    (hf : ∀ x, (f x).Peer.nodeID = x.Peer.nodeID) :
    (updAt l i f).map (fun fs => fs.Peer.nodeID) =
      l.map (fun fs => fs.Peer.nodeID) := by
  induction l generalizing i with
  | nil => rfl
  | cons a l ih =>
    cases i with
    | zero => simp [updAt, hf a]
    | succ i => simp [updAt, ih i]

theorem map_nodeID_setFirstBy (p : federateServer → Bool)
    (f : federateServer → federateServer) (l : List federateServer)
    (hf : ∀ x, (f x).Peer.nodeID = x.Peer.nodeID) :
    (setFirstBy p f l).map (fun fs => fs.Peer.nodeID) =
      l.map (fun fs => fs.Peer.nodeID) := by
  unfold setFirstBy
  cases hj : findIdxBy p l with
  | none => rfl
  | some j => exact map_nodeID_updAt l j f hf

theorem map_nodeID_demoteFirst (l : List federateServer)
    (src tgt : NodeState) :
    (demoteFirst l src tgt).map (fun fs => fs.Peer.nodeID) =
      l.map (fun fs => fs.Peer.nodeID) :=
  map_nodeID_setFirstBy _ _ l (fun _ => rfl)

theorem map_nodeID_setPeerStateAt (l : List federateServer) (i : Nat)
    (st : NodeState) :
    (setPeerStateAt l i st).map (fun fs => fs.Peer.nodeID) =
      l.map (fun fs => fs.Peer.nodeID) :=
  map_nodeID_updAt l i _ (fun _ => rfl)

theorem findIdxBy_nodeID_of_nodup (l : List federateServer) (i : Nat)
    (a : federateServer)
    (hnodup : (l.map (fun fs => fs.Peer.nodeID)).Nodup)
    (ha : l[i]? = some a) :
    findIdxBy (fun fs => fs.Peer.nodeID == a.Peer.nodeID) l = some i := by
  induction l generalizing i with
  | nil => simp at ha
  | cons b l ih =>
    simp only [List.map_cons, List.nodup_cons, List.mem_map] at hnodup
    cases i with
    | zero =>
      simp only [List.getElem?_cons_zero, Option.some_inj] at ha
      subst ha
      simp [findIdxBy]
    | succ i =>
      simp only [List.getElem?_cons_succ] at ha
      have hmem : a ∈ l := getElem?_mem_of_some ha
      have hbne : ¬(b.Peer.nodeID == a.Peer.nodeID) = true := by
        simp only [beq_iff_eq]
        intro heq
        exact hnodup.1 ⟨a, hmem, heq.symm⟩
      simp only [findIdxBy, hbne, Bool.false_eq_true, if_false, ite_false,
        ih i hnodup.2 ha, Option.map_some']

theorem getElem?_setFirstBy_found (p : federateServer → Bool)
    (f : federateServer → federateServer) (l : List federateServer) (i : Nat)
    (hfi : findIdxBy p l = some i) :
    (setFirstBy p f l)[i]? = (l[i]?).map f := by
  unfold setFirstBy
  rw [hfi, getElem?_updAt, if_pos rfl]

theorem getElem?_setFirstBy_ne (p : federateServer → Bool)
    (f : federateServer → federateServer) (l : List federateServer) (i j : Nat)
    (hfi : findIdxBy p l = some i) (hne : j ≠ i) :
    (setFirstBy p f l)[j]? = l[j]? := by
  unfold setFirstBy
  rw [hfi, getElem?_updAt, if_neg hne]

/-- **C2** (corrected): for a Leader (not in single-server mode) with
policy `P` — provided `P.NotifyDBHeight ≠ P.Term` (otherwise the earlier
notify branch of the `else if` chain fires first) and
`P.StartDBHeight + P.Term` does not wrap to 0 mod `2^32` — invoking
`handleNextLeader` at `h = P.StartDBHeight + P.Term - 1` completes the
regime change: the server's own role becomes `LeaderPrev`, the peer that
was `LeaderElect` (if one exists) becomes `Leader`, `myLeaderPolicy` is
cleared, and the server's own federate entry gets `LeaderLast = h`. -/
theorem c2_regime_change (s : server) (P : leaderPolicy)
    (height iSelf : Nat) (aSelf : federateServer)
    (hpol : s.myLeaderPolicy = some P)
    (hidx : findIdxBy (fun fs => fs.Peer.nodeID == s.nodeID)
      s.federateServers = some iSelf)
    (ha : s.federateServers[iSelf]? = some aSelf)
    (hstate : aSelf.Peer.nodeState = .leader)
    (hnodup : (s.federateServers.map (fun fs => fs.Peer.nodeID)).Nodup)
    (hsingle : isSingleServerMode s = false)
    (hS : P.StartDBHeight < 4294967296) (hT : P.Term < 4294967296)
    (hN : P.NotifyDBHeight < 4294967296)
    (hwrap : u32 (P.StartDBHeight + P.Term) ≠ 0)
    (hnoti : P.NotifyDBHeight ≠ P.Term)
    (hh : height = u32sub (u32 (P.StartDBHeight + P.Term)) 1) :
    ∃ s4, handleNextLeader s height = some (s4, []) ∧
      s4.myLeaderPolicy = none ∧
      (∃ b, GetFederateServerByID s4 s.nodeID = some b ∧
        b.Peer.nodeState = .leaderPrev ∧ b.LeaderLast = height) ∧
      (∀ e, GetLeaderElect s = some e →
        ∃ c, GetFederateServerByID s4 e.nodeID = some c ∧
          c.Peer.nodeState = .leader) := by
  have hGMF : GetMyFederateServer s = some aSelf := by
    unfold GetMyFederateServer GetFederateServerByID
    rw [findBy_eq_findIdxBy, hidx]
    simpa using ha
  have hidSelf : aSelf.Peer.nodeID = s.nodeID := by
    obtain ⟨b, hb, hq⟩ := findIdxBy_some_spec _ _ _ hidx
    rw [hb] at ha
    cases ha
    simpa using hq
  have hcond1 : ¬ height > u32 (P.StartDBHeight + P.Term) := by
    rw [hh]
    simp only [u32, u32sub] at hwrap ⊢
    omega
  have hcond2 : ¬ height = u32sub (u32 (P.StartDBHeight + P.NotifyDBHeight)) 1 := by
    rw [hh]
    simp only [u32, u32sub] at hwrap ⊢
    intro hEq
    omega
  -- the intermediate rosters
  have hj1 : findIdxBy (fun fs => fs.Peer.nodeID == s.nodeID)
      (demoteFirst s.federateServers .leaderPrev .follower) = some iSelf := by
    rw [findIdxBy_nodeID_demoteFirst]
    exact hidx
  have hs1 : SetPrevLeaderByID s s.nodeID =
      { s with federateServers :=
          (setPeerStateAt (demoteFirst s.federateServers .leaderPrev .follower)
            iSelf .leaderPrev) } := by
    unfold SetPrevLeaderByID
    simp only [hj1]
  have hl1self : (demoteFirst s.federateServers .leaderPrev .follower)[iSelf]? =
      some aSelf :=
    getElem?_demoteFirst_of_ne_state _ _ _ _ _ ha (by simp [hstate])
  have hl2self :
      (setPeerStateAt (demoteFirst s.federateServers .leaderPrev .follower)
        iSelf .leaderPrev)[iSelf]? =
      some { aSelf with Peer := { aSelf.Peer with nodeState := .leaderPrev } } :=
    getElem?_setPeerStateAt_eq _ _ _ _ hl1self
  have hE12 : findIdxBy (fun fs => fs.Peer.nodeState == NodeState.leaderElect)
      (setPeerStateAt (demoteFirst s.federateServers .leaderPrev .follower)
        iSelf .leaderPrev) =
      findIdxBy (fun fs => fs.Peer.nodeState == NodeState.leaderElect)
        s.federateServers := by
    rw [findIdxBy_roleP_setPeerStateAt _ iSelf .leaderPrev .leaderElect aSelf
        hl1self (by simp [hstate]) (by decide),
      findIdxBy_roleP_demoteFirst _ _ _ _ (by decide) (by decide)]
  unfold handleNextLeader
  simp only [hGMF, hstate, hsingle]
  simp only [show (NodeState.leader == NodeState.leader) = true from rfl,
    show (NodeState.leader == NodeState.leaderElect) = false from rfl,
    Bool.not_true, Bool.not_false, Bool.false_and, Bool.false_eq_true,
    if_false, ite_false, hpol]
  rw [if_neg hcond1, if_neg hcond2, if_pos hh]
  simp only [hs1, hE12]
  cases hE : findIdxBy (fun fs => fs.Peer.nodeState == NodeState.leaderElect)
      s.federateServers with
  | none =>
    simp only [hE]
    have hj2 : findIdxBy (fun fs => fs.Peer.nodeID == s.nodeID)
        (setPeerStateAt (demoteFirst s.federateServers .leaderPrev .follower)
          iSelf .leaderPrev) = some iSelf := by
      rw [findIdxBy_nodeID_setPeerStateAt]
      exact hj1
    have hGF3 : findBy (fun fs => fs.Peer.nodeID == s.nodeID)
        (setPeerStateAt (demoteFirst s.federateServers .leaderPrev .follower)
          iSelf .leaderPrev) =
        some { aSelf with Peer := { aSelf.Peer with nodeState := .leaderPrev } } := by
      rw [findBy_eq_findIdxBy, hj2]
      simpa using hl2self
    unfold GetFederateServerByID setLeaderLastByID
    simp only [hGF3]
    refine ⟨_, rfl, rfl, ?_, ?_⟩
    · refine ⟨{ aSelf with
          Peer := { aSelf.Peer with nodeState := .leaderPrev },
          LeaderLast := height }, ?_, rfl, rfl⟩
      show findBy (fun fs => fs.Peer.nodeID == s.nodeID)
          (setFirstBy (fun fs => fs.Peer.nodeID == s.nodeID)
            (fun fs => { fs with LeaderLast := height })
            (setPeerStateAt
              (demoteFirst s.federateServers .leaderPrev .follower)
              iSelf .leaderPrev)) = _
      rw [findBy_eq_findIdxBy,
        findIdxBy_nodeID_setFirstBy _ (fun fs => { fs with LeaderLast := height }) _ _ (fun x => rfl), hj2,
        Option.some_bind, getElem?_setFirstBy_found _ _ _ _ hj2, hl2self]
      rfl
    · intro e hGLE
      exfalso
      unfold GetLeaderElect GetPeer at hGLE
      rw [findBy_eq_findIdxBy, hE] at hGLE
      cases hGLE
  | some iE =>
    simp only [hE]
    obtain ⟨aE, haE, hqE⟩ := findIdxBy_some_spec _ _ _ hE
    have haEstate : aE.Peer.nodeState = .leaderElect := by simpa using hqE
    have hEne : iE ≠ iSelf := by
      intro heq
      rw [heq, ha] at haE
      cases haE
      rw [hstate] at haEstate
      cases haEstate
    have hl2E :
        (setPeerStateAt (demoteFirst s.federateServers .leaderPrev .follower)
          iSelf .leaderPrev)[iE]? = some aE := by
      rw [getElem?_setPeerStateAt_ne _ _ _ _ hEne]
      exact getElem?_demoteFirst_of_ne_state _ _ _ _ _ haE (by simp [haEstate])
    -- after SetLeaderPeer: demote the (now absent) leader, set iE to leader
    have hl3E :
        (demoteFirst
          (setPeerStateAt (demoteFirst s.federateServers .leaderPrev .follower)
            iSelf .leaderPrev) .leader .leaderPrev)[iE]? = some aE :=
      getElem?_demoteFirst_of_ne_state _ _ _ _ _ hl2E (by simp [haEstate])
    have hl3self :
        (demoteFirst
          (setPeerStateAt (demoteFirst s.federateServers .leaderPrev .follower)
            iSelf .leaderPrev) .leader .leaderPrev)[iSelf]? =
        some { aSelf with Peer := { aSelf.Peer with nodeState := .leaderPrev } } :=
      getElem?_demoteFirst_of_ne_state _ _ _ _ _ hl2self (by simp)
    have hl4E :
        (setPeerStateAt
          (demoteFirst
            (setPeerStateAt (demoteFirst s.federateServers .leaderPrev .follower)
              iSelf .leaderPrev) .leader .leaderPrev) iE .leader)[iE]? =
        some { aE with Peer := { aE.Peer with nodeState := .leader } } :=
      getElem?_setPeerStateAt_eq _ _ _ _ hl3E
    have hl4self :
        (setPeerStateAt
          (demoteFirst
            (setPeerStateAt (demoteFirst s.federateServers .leaderPrev .follower)
              iSelf .leaderPrev) .leader .leaderPrev) iE .leader)[iSelf]? =
        some { aSelf with Peer := { aSelf.Peer with nodeState := .leaderPrev } } := by
      rw [getElem?_setPeerStateAt_ne _ _ _ _ (fun heq => hEne heq.symm)]
      exact hl3self
    have hj4 : findIdxBy (fun fs => fs.Peer.nodeID == s.nodeID)
        (setPeerStateAt
          (demoteFirst
            (setPeerStateAt (demoteFirst s.federateServers .leaderPrev .follower)
              iSelf .leaderPrev) .leader .leaderPrev) iE .leader) =
        some iSelf := by
      rw [findIdxBy_nodeID_setPeerStateAt, findIdxBy_nodeID_demoteFirst,
        findIdxBy_nodeID_setPeerStateAt]
      exact hj1
    have hGF3 : findBy (fun fs => fs.Peer.nodeID == s.nodeID)
        (setPeerStateAt
          (demoteFirst
            (setPeerStateAt (demoteFirst s.federateServers .leaderPrev .follower)
              iSelf .leaderPrev) .leader .leaderPrev) iE .leader) =
        some { aSelf with Peer := { aSelf.Peer with nodeState := .leaderPrev } } := by
      rw [findBy_eq_findIdxBy, hj4]
      simpa using hl4self
    have hmap4 :
        ((setPeerStateAt
          (demoteFirst
            (setPeerStateAt (demoteFirst s.federateServers .leaderPrev .follower)
              iSelf .leaderPrev) .leader .leaderPrev) iE .leader).map
          (fun fs => fs.Peer.nodeID)).Nodup := by
      rw [map_nodeID_setPeerStateAt, map_nodeID_demoteFirst,
        map_nodeID_setPeerStateAt, map_nodeID_demoteFirst]
      exact hnodup
    unfold SetLeaderPeer GetFederateServerByID setLeaderLastByID
    simp only [hGF3]
    refine ⟨_, rfl, rfl, ?_, ?_⟩
    · refine ⟨{ aSelf with
          Peer := { aSelf.Peer with nodeState := .leaderPrev },
          LeaderLast := height }, ?_, rfl, rfl⟩
      show findBy (fun fs => fs.Peer.nodeID == s.nodeID)
          (setFirstBy (fun fs => fs.Peer.nodeID == s.nodeID)
            (fun fs => { fs with LeaderLast := height })
            (setPeerStateAt
              (demoteFirst
                (setPeerStateAt
                  (demoteFirst s.federateServers .leaderPrev .follower)
                  iSelf .leaderPrev) .leader .leaderPrev) iE .leader)) = _
      rw [findBy_eq_findIdxBy,
        findIdxBy_nodeID_setFirstBy _ (fun fs => { fs with LeaderLast := height }) _ _ (fun x => rfl), hj4,
        Option.some_bind, getElem?_setFirstBy_found _ _ _ _ hj4, hl4self]
      rfl
    · intro e hGLE
      unfold GetLeaderElect GetPeer at hGLE
      rw [findBy_eq_findIdxBy, hE] at hGLE
      simp only [Option.some_bind, haE, Option.map_some', Option.some_inj] at hGLE
      subst hGLE
      -- the final roster, with the stamped self entry
      refine ⟨{ aE with Peer := { aE.Peer with nodeState := .leader } }, ?_, rfl⟩
      have hmapS4 :
          ((setFirstBy (fun fs => fs.Peer.nodeID == s.nodeID)
            (fun fs => { fs with LeaderLast := height })
            (setPeerStateAt
              (demoteFirst
                (setPeerStateAt
                  (demoteFirst s.federateServers .leaderPrev .follower)
                  iSelf .leaderPrev) .leader .leaderPrev) iE .leader)).map
            (fun fs => fs.Peer.nodeID)).Nodup := by
        rw [map_nodeID_setFirstBy _ (fun fs => { fs with LeaderLast := height }) _ (fun x => rfl)]
        exact hmap4
      have hS4E :
          (setFirstBy (fun fs => fs.Peer.nodeID == s.nodeID)
            (fun fs => { fs with LeaderLast := height })
            (setPeerStateAt
              (demoteFirst
                (setPeerStateAt
                  (demoteFirst s.federateServers .leaderPrev .follower)
                  iSelf .leaderPrev) .leader .leaderPrev) iE .leader))[iE]? =
          some { aE with Peer := { aE.Peer with nodeState := .leader } } := by
        rw [getElem?_setFirstBy_ne _ _ _ _ _ hj4 hEne]
        exact hl4E
      have hfind := findIdxBy_nodeID_of_nodup _ iE
        { aE with Peer := { aE.Peer with nodeState := .leader } } hmapS4 hS4E
      show findBy (fun fs => fs.Peer.nodeID == aE.Peer.nodeID)
          (setFirstBy (fun fs => fs.Peer.nodeID == s.nodeID)
            (fun fs => { fs with LeaderLast := height })
            (setPeerStateAt
              (demoteFirst
                (setPeerStateAt
                  (demoteFirst s.federateServers .leaderPrev .follower)
                  iSelf .leaderPrev) .leader .leaderPrev) iE .leader)) = _
      rw [findBy_eq_findIdxBy]
      have hfind2 : findIdxBy (fun fs => fs.Peer.nodeID == aE.Peer.nodeID)
          (setFirstBy (fun fs => fs.Peer.nodeID == s.nodeID)
            (fun fs => { fs with LeaderLast := height })
            (setPeerStateAt
              (demoteFirst
                (setPeerStateAt
                  (demoteFirst s.federateServers .leaderPrev .follower)
                  iSelf .leaderPrev) .leader .leaderPrev) iE .leader)) =
          some iE := hfind
      rw [hfind2, Option.some_bind]
      exact hS4E

/-- **C2** counterexample: with `P.NotifyDBHeight = P.Term = 1` and
`P.StartDBHeight = 2`, at `h = P.StartDBHeight + P.Term - 1 = 2` the
`else if` chain fires the notify branch (`selectNextLeader`) instead of
the regime change: afterwards the policy is not nil, the server's own
entry still has role `Leader`, and its `LeaderLast` is 0, not `h` —
contradicting every postcondition of the claim. -/
theorem c2_counterexample :
    handleNextLeader serverC2bad 2 =
      some (serverC2badAfter,
            [WireMsg.nextLeader "A" "B" 3 (signMsg "A" "AB")]) ∧
    serverC2badAfter.myLeaderPolicy ≠ none ∧
    GetFederateServerByID serverC2badAfter "A" =
      some (mkFS "A" .leader 0 0) := by
  refine ⟨by decide, by decide, by decide⟩

/-- Witness for C2 (corrected): roster `[A:Leader, B:LeaderElect,
C:Follower]`, self `A`, policy `StartDBHeight = 2`, `Term = 2`,
`NotifyDBHeight = 1`, at height `3 = 2 + 2 - 1`. -/
theorem c2_regime_change_witness :
    ∃ s4, handleNextLeader serverC2 3 = some (s4, []) ∧
      s4.myLeaderPolicy = none ∧
      (∃ b, GetFederateServerByID s4 serverC2.nodeID = some b ∧
        b.Peer.nodeState = .leaderPrev ∧ b.LeaderLast = 3) ∧
      (∀ e, GetLeaderElect serverC2 = some e →
        ∃ c, GetFederateServerByID s4 e.nodeID = some c ∧
          c.Peer.nodeState = .leader) :=
  c2_regime_change serverC2 ⟨none, 2, 2, 1, false, false⟩ 3 0
    (mkFS "A" .leader 0 0) (by decide) (by decide) (by decide) (by decide)
    (by decide) (by decide) (by decide) (by decide) (by decide) (by decide)
    (by decide) (by decide)

end FactomCode
